import Mathlib

/-! wlrsetroot: a shallow embedding of the wallpaper renderer and its output sessions

The development follows the C sources `src/main.c`, `src/pool-buffer.c` and `src/xbm.c`.

* C `unsigned int` / `uint32_t` values are natural numbers, every arithmetic result that the C
  code computes in 32 bits is reduced `% 2 ^ 32`; `size_t` is 64 bits wide.
* C `float` values are the rational numbers they denote; every operation that rounds is
  followed by `f32_round` (IEEE-754 binary32, round to nearest, ties to even).
* Pointers are `Option`s (`none` is `NULL`); protocol objects are numbered handles.
* Calls into libwayland and the operating system are recorded as a list of `Cmd`.
-/

namespace Wlrsetroot

/-! ## Machine arithmetic -/

/-- Conversion of a C `int` to `unsigned int` (reduction modulo `2 ^ 32`). -/
def u32_of_int (i : ℤ) : ℕ := (i % 2 ^ 32).toNat

/-- Rounding of a non-negative rational to the nearest binary32 value, ties to even.
The significand has 24 bits; the exponent range is not modelled (all values that occur lie
between `2 ^ (-5)` and `2 ^ 36`, well inside the normal range). -/
def f32_round (q : ℚ) : ℚ :=
  if q ≤ 0 then 0 else
    let e : ℤ := Int.log 2 q - 23
    let t : ℚ := q / (2 : ℚ) ^ e
    let m : ℤ := ⌊t⌋
    let m' : ℤ :=
      if t - m < 1 / 2 then m
      else if 1 / 2 < t - m then m + 1
      else if m % 2 = 0 then m else m + 1
    (m' : ℚ) * (2 : ℚ) ^ e

/-- The conversion `(float)n` of an unsigned integer. -/
def f32_of_u32 (n : ℕ) : ℚ := f32_round (n : ℚ)

/-- Single-precision division `a / b`. -/
def f32_div (a b : ℚ) : ℚ := f32_round (a / b)

/-- The C library function `fmodf(a, b)` for `a ≥ 0`, `b > 0`: `a - trunc(a / b) * b`,
which is exact in binary32. -/
def fmodf (a b : ℚ) : ℚ := a - b * ((⌊a / b⌋ : ℤ) : ℚ)

/-- The conversion `(unsigned int)v` of a non-negative float: truncation. -/
def u32_of_f32 (v : ℚ) : ℕ := ⌊v⌋.toNat % 2 ^ 32

/-! ## xbm.h / xbm.c -/

/-- The C `struct xbm_image`; `bits` is the byte array. -/
structure xbm_image where
  width : ℕ
  height : ℕ
  bits : List ℕ
  hotspot_x : ℤ
  hotspot_y : ℤ

/-- The local `bytes_per_row` of `xbm_get_pixel` and `xbm_load`: `(image->width + 7) / 8`,
the sum being an `unsigned int`. -/
def xbm_bytes_per_row (width : ℕ) : ℕ := ((width + 7) % 2 ^ 32) / 8

/-- The local `byte_index` of `xbm_get_pixel` (a `size_t`). -/
def xbm_byte_index (image : xbm_image) (x y : ℕ) : ℕ :=
  (y * xbm_bytes_per_row image.width + x / 8) % 2 ^ 64

/-- The C function `xbm_get_pixel`. A read past the end of `bits` yields `0`. -/
def xbm_get_pixel (image : xbm_image) (x y : ℕ) : ℕ :=
  if x ≥ image.width ∨ y ≥ image.height then 0
  else
    let byte_index := xbm_byte_index image x y
    let bit_index := x % 8
    (image.bits.getD byte_index 0 >>> bit_index) &&& 1

/-- The size `expected_size` that `xbm_load` passes to `parse_data_array` (and `malloc`). -/
def xbm_expected_size (width height : ℕ) : ℕ :=
  (xbm_bytes_per_row width * height) % 2 ^ 64

/-- The C function `xbm_load` after the file has been read: `width_def`, `height_def`,
`x_hot`, `y_hot` are the values of the `#define`s found by `read_define` (C `int`s, absent
when there is no such `#define`), `array` the numbers between the braces, absent when
`parse_data_array` returns `NULL` (no opening brace, or `malloc` fails). The array is
allocated with `expected_size` bytes; the bytes that the file does not provide are
uninitialised in C and zero here. -/
def xbm_load (width_def height_def x_hot y_hot : Option ℤ) (array : Option (List ℕ)) :
    Option xbm_image :=
  match width_def, height_def with
  | some width_value, some height_value =>
    let width := u32_of_int width_value
    let height := u32_of_int height_value
    if width = 0 ∨ height = 0 then none
    else
      let expected_size := xbm_expected_size width height
      match array with
      | none => none
      | some values =>
        let parsed := (values.take expected_size).map (fun v => v % 256)
        some
          { width := width, height := height,
            bits := parsed ++ List.replicate (expected_size - parsed.length) 0,
            hotspot_x := x_hot.getD (-1), hotspot_y := y_hot.getD (-1) }
  | _, _ => none

/-! ## main.c: patterns and the renderer -/

/-- The built-in 2x2 checkerboard `gray_bits`. -/
def gray_bits : List ℕ := [0x01, 0x02]

/-- The constant `GRAY_WIDTH`. -/
def GRAY_WIDTH : ℕ := 2

/-- The constant `GRAY_HEIGHT`. -/
def GRAY_HEIGHT : ℕ := 2

/-- The C `enum pattern_type`. -/
inductive pattern_type
  | PATTERN_NONE
  | PATTERN_XBM
  | PATTERN_GRAY
  | PATTERN_MOD
  deriving DecidableEq, Repr

/-- Pixel memory reached through `buffer.data`, addressed in 32-bit words. -/
abbrev PixelMem := ℕ → ℕ

/-- The assignment `pixels[i] = v`. -/
def store (pixels : PixelMem) (i v : ℕ) : PixelMem :=
  fun j => if j = i then v else pixels j

/-- The C `struct pool_buffer`. -/
structure pool_buffer where
  buffer : Option ℕ
  data : Option PixelMem
  width : ℕ
  height : ℕ
  size : ℕ

/-- The C `struct wlrsetroot_output` (the back pointer `state` is passed separately and the
list link is the position in `wlrsetroot_state.outputs`). -/
structure wlrsetroot_output where
  wl_output : Option ℕ
  wl_name : ℕ
  surface : Option ℕ
  layer_surface : Option ℕ
  buffer : pool_buffer
  width : ℕ
  height : ℕ
  scale : ℤ
  configured : Bool
  configure_serial : ℕ

/-- The C `struct wlrsetroot_state`. -/
structure wlrsetroot_state where
  display : Option ℕ
  registry : Option ℕ
  compositor : Option ℕ
  shm : Option ℕ
  layer_shell : Option ℕ
  outputs : List wlrsetroot_output
  pattern : pattern_type
  xbm : Option xbm_image
  mod_x : ℤ
  mod_y : ℤ
  fg_color : ℕ
  bg_color : ℕ
  pattern_scale : ℚ
  reverse : Bool
  running : Bool

/-- The C function `gray_get_pixel`. -/
def gray_get_pixel (x y : ℕ) : ℕ :=
  let byte_index := (y * ((GRAY_WIDTH + 7) / 8) + x / 8) % 2 ^ 32
  let bit_index := x % 8
  (gray_bits.getD byte_index 0 >>> bit_index) &&& 1

/-- The C function `mod_get_pixel`; the `int` spacings are converted to `unsigned int` by the
`%` operator. -/
def mod_get_pixel (mod_x mod_y : ℤ) (x y : ℕ) : ℕ :=
  let x := x % 16
  let y := y % 16
  if y % u32_of_int mod_y = 0 then 1
  else if x % u32_of_int mod_x = 0 then 1
  else 0

/-- The `switch (state->pattern)` in the loop body of `render_tiled_pattern`: the value of the
local `pixel` for the device coordinate `(x, y)`. -/
def pattern_pixel (state : wlrsetroot_state) (x y : ℕ) : ℕ :=
  let scale := state.pattern_scale
  match state.pattern with
  | .PATTERN_XBM =>
    match state.xbm with
    | some xbm =>
      let xbm_width_f := f32_of_u32 xbm.width
      let xbm_height_f := f32_of_u32 xbm.height
      let xbm_x := u32_of_f32 (fmodf (f32_div (f32_of_u32 x) scale) xbm_width_f)
      let xbm_y := u32_of_f32 (fmodf (f32_div (f32_of_u32 y) scale) xbm_height_f)
      xbm_get_pixel xbm xbm_x xbm_y
    | none => 0
  | .PATTERN_GRAY =>
    let gray_x := u32_of_f32 (fmodf (f32_div (f32_of_u32 x) scale) (f32_of_u32 GRAY_WIDTH))
    let gray_y := u32_of_f32 (fmodf (f32_div (f32_of_u32 y) scale) (f32_of_u32 GRAY_HEIGHT))
    gray_get_pixel gray_x gray_y
  | .PATTERN_MOD =>
    let mod_px := u32_of_f32 (f32_div (f32_of_u32 x) scale)
    let mod_py := u32_of_f32 (f32_div (f32_of_u32 y) scale)
    mod_get_pixel state.mod_x state.mod_y mod_px mod_py
  | .PATTERN_NONE => 0

/-- The C function `render_tiled_pattern`: `pixels` is the memory behind
`output->buffer.data` before the call, the result is that memory after it. -/
def render_tiled_pattern (state : wlrsetroot_state) (buffer : pool_buffer)
    (pixels : PixelMem) : PixelMem :=
  let buf_width := buffer.width
  let buf_height := buffer.height
  let fg := if state.reverse then state.bg_color else state.fg_color
  let bg := if state.reverse then state.fg_color else state.bg_color
  if state.pattern = .PATTERN_NONE then
    (List.range ((buf_width * buf_height) % 2 ^ 32)).foldl (fun px i => store px i bg) pixels
  else
    (List.range buf_height).foldl (fun px y =>
      (List.range buf_width).foldl (fun px x =>
        store px ((y * buf_width + x) % 2 ^ 32)
          (if pattern_pixel state x y ≠ 0 then bg else fg)) px) pixels

/-! ## pool-buffer.c -/

/-- The registry interface names that `registry_global` compares against (`other` stands for
every other interface string). -/
inductive Interface
  | wl_compositor
  | wl_shm
  | wl_output
  | zwlr_layer_shell_v1
  | other
  deriving DecidableEq, Repr

/-- Calls into libwayland, libc and the operating system, in the order they are made.
Handles are the numbers of the protocol objects; an absent handle is a `NULL` argument. -/
inductive Cmd
  | wl_registry_bind (name : ℕ) (interface : Interface) (version : ℕ) (proxy : ℕ)
  | wl_output_add_listener (wl_output : ℕ)
  | wl_compositor_create_surface (compositor : Option ℕ) (result : Option ℕ)
  | wl_compositor_create_region (compositor : Option ℕ) (region : ℕ)
  | wl_surface_set_input_region (surface : ℕ) (region : ℕ)
  | wl_region_destroy (region : ℕ)
  | zwlr_layer_shell_v1_get_layer_surface (layer_shell : Option ℕ) (surface : ℕ)
      (wl_output : Option ℕ) (result : Option ℕ)
  | zwlr_layer_surface_v1_set_size (layer_surface : ℕ) (width height : ℕ)
  | zwlr_layer_surface_v1_set_anchor (layer_surface : ℕ)
  | zwlr_layer_surface_v1_set_exclusive_zone (layer_surface : ℕ) (zone : ℤ)
  | zwlr_layer_surface_v1_add_listener (layer_surface : ℕ)
  | wl_surface_commit (surface : Option ℕ)
  | zwlr_layer_surface_v1_ack_configure (layer_surface : Option ℕ) (serial : ℕ)
  | wl_surface_set_buffer_scale (surface : Option ℕ) (scale : ℤ)
  | wl_surface_attach (surface : Option ℕ) (buffer : Option ℕ)
  | wl_surface_damage_buffer (surface : Option ℕ) (width height : ℕ)
  | zwlr_layer_surface_v1_destroy (layer_surface : ℕ)
  | wl_surface_destroy (surface : ℕ)
  | wl_output_destroy (wl_output : ℕ)
  | wl_buffer_destroy (buffer : ℕ)
  | munmap (size : ℕ)
  | free_output
  | create_shm_file (ok : Bool)
  | ftruncate (size : ℕ) (ok : Bool)
  | mmap (size : ℕ) (ok : Bool)
  | wl_shm_create_pool (shm : Option ℕ) (size : ℕ)
  | wl_shm_pool_create_buffer (width height stride format : ℕ) (buffer : ℕ)
  | wl_shm_pool_destroy
  | close
  | wl_display_get_registry (registry : ℕ)
  | wl_display_roundtrip
  | wl_display_dispatch (ok : Bool)
  | zwlr_layer_shell_v1_destroy (layer_shell : ℕ)
  | wl_shm_destroy (shm : ℕ)
  | wl_compositor_destroy (compositor : ℕ)
  | wl_registry_destroy (registry : ℕ)
  | wl_display_disconnect (display : ℕ)
  | xbm_free
  deriving DecidableEq, Repr

/-- What the operating system answers to the three steps of `pool_buffer_create`. -/
inductive ShmOutcome
  | shm_open_failed
  | ftruncate_failed
  | mmap_failed
  | mapped
  deriving DecidableEq, Repr

/-- The environment of a run. External calls are numbered by a counter (the `tick`); a call
that creates an object returns the current tick as the new handle.
`shm t` is the outcome of the shared-memory steps of a `pool_buffer_create` made at tick `t`,
`alloc_ok t` tells whether a `calloc`, `wl_compositor_create_surface` or
`zwlr_layer_shell_v1_get_layer_surface` made at tick `t` returns a non-`NULL` result.
Registry binds and `wl_shm_pool_create_buffer` always return an object. -/
structure Env where
  shm : ℕ → ShmOutcome
  alloc_ok : ℕ → Bool

/-- The constant `WL_SHM_FORMAT_ARGB8888` of the Wayland protocol. -/
def WL_SHM_FORMAT_ARGB8888 : ℕ := 0

/-- The C function `pool_buffer_create`; returns the result, the buffer, the next tick and the
calls made. -/
def pool_buffer_create (env : Env) (tick : ℕ) (buf : pool_buffer) (shm : Option ℕ)
    (width height format : ℕ) : Bool × pool_buffer × ℕ × List Cmd :=
  let stride := (width * 4) % 2 ^ 32
  let size := (stride * height) % 2 ^ 64
  match env.shm tick with
  | .shm_open_failed => (false, buf, tick + 1, [.create_shm_file false])
  | .ftruncate_failed =>
    (false, buf, tick + 1, [.create_shm_file true, .ftruncate size false, .close])
  | .mmap_failed =>
    (false, buf, tick + 1,
      [.create_shm_file true, .ftruncate size true, .mmap size false, .close])
  | .mapped =>
    (true,
      { buffer := some tick, data := some (fun _ => 0), width := width, height := height,
        size := size },
      tick + 1,
      [.create_shm_file true, .ftruncate size true, .mmap size true,
        .wl_shm_create_pool shm size,
        .wl_shm_pool_create_buffer width height stride format tick,
        .wl_shm_pool_destroy, .close])

/-- The C function `pool_buffer_destroy`. -/
def pool_buffer_destroy (buf : pool_buffer) : pool_buffer × List Cmd :=
  let r1 : pool_buffer × List Cmd :=
    match buf.buffer with
    | some b => ({ buf with buffer := none }, [.wl_buffer_destroy b])
    | none => (buf, [])
  match r1.1.data with
  | some _ => ({ r1.1 with data := none }, r1.2 ++ [.munmap r1.1.size])
  | none => r1

/-! ## main.c: output sessions -/

/-- The C function `layer_surface_configure`. -/
def layer_surface_configure (output : wlrsetroot_output) (serial width height : ℕ) :
    wlrsetroot_output :=
  { output with width := width, height := height, configure_serial := serial,
                configured := true }

/-- The C function `layer_surface_closed`. -/
def layer_surface_closed (output : wlrsetroot_output) : wlrsetroot_output × List Cmd :=
  let r1 : wlrsetroot_output × List Cmd :=
    match output.layer_surface with
    | some l => ({ output with layer_surface := none }, [.zwlr_layer_surface_v1_destroy l])
    | none => (output, [])
  let r2 : wlrsetroot_output × List Cmd :=
    match r1.1.surface with
    | some s => ({ r1.1 with surface := none }, r1.2 ++ [.wl_surface_destroy s])
    | none => r1
  let d := pool_buffer_destroy r2.1.buffer
  ({ r2.1 with buffer := d.1 }, r2.2 ++ d.2)

/-- The C function `create_layer_surface`; the surface is anchored to all four edges. -/
def create_layer_surface (env : Env) (tick : ℕ) (state : wlrsetroot_state)
    (output : wlrsetroot_output) : wlrsetroot_output × ℕ × List Cmd :=
  if env.alloc_ok tick = false then
    ({ output with surface := none }, tick + 1,
      [.wl_compositor_create_surface state.compositor none])
  else
    let surface := tick
    let input_region := tick + 1
    let c1 : List Cmd :=
      [.wl_compositor_create_surface state.compositor (some surface),
        .wl_compositor_create_region state.compositor input_region,
        .wl_surface_set_input_region surface input_region,
        .wl_region_destroy input_region]
    if env.alloc_ok (tick + 2) = false then
      ({ output with surface := none, layer_surface := none }, tick + 3,
        c1 ++ [.zwlr_layer_shell_v1_get_layer_surface state.layer_shell surface
                  output.wl_output none,
               .wl_surface_destroy surface])
    else
      let layer_surface := tick + 2
      ({ output with surface := some surface, layer_surface := some layer_surface }, tick + 3,
        c1 ++ [.zwlr_layer_shell_v1_get_layer_surface state.layer_shell surface
                  output.wl_output (some layer_surface),
               .zwlr_layer_surface_v1_set_size layer_surface 0 0,
               .zwlr_layer_surface_v1_set_anchor layer_surface,
               .zwlr_layer_surface_v1_set_exclusive_zone layer_surface (-1),
               .zwlr_layer_surface_v1_add_listener layer_surface,
               .wl_surface_commit (some surface)])

/-- The C function `render_output`; returns the session, the next tick and the calls made. -/
def render_output (env : Env) (tick : ℕ) (state : wlrsetroot_state)
    (output : wlrsetroot_output) : wlrsetroot_output × ℕ × List Cmd :=
  if output.configured = false ∨ output.width = 0 ∨ output.height = 0 then
    (output, tick, [])
  else
    let buffer_width := (output.width * u32_of_int output.scale) % 2 ^ 32
    let buffer_height := (output.height * u32_of_int output.scale) % 2 ^ 32
    let r : Bool × wlrsetroot_output × ℕ × List Cmd :=
      if output.buffer.buffer = none ∨ output.buffer.width ≠ buffer_width ∨
          output.buffer.height ≠ buffer_height then
        let d := pool_buffer_destroy output.buffer
        let c := pool_buffer_create env tick d.1 state.shm buffer_width buffer_height
          WL_SHM_FORMAT_ARGB8888
        (c.1, { output with buffer := c.2.1 }, c.2.2.1, d.2 ++ c.2.2.2)
      else (true, output, tick, [])
    if r.1 = false then (r.2.1, r.2.2.1, r.2.2.2)
    else
      let o := r.2.1
      let rendered : wlrsetroot_output :=
        { o with buffer :=
            { o.buffer with data := o.buffer.data.map (render_tiled_pattern state o.buffer) } }
      (rendered, r.2.2.1,
        r.2.2.2 ++
          [.zwlr_layer_surface_v1_ack_configure o.layer_surface o.configure_serial,
           .wl_surface_set_buffer_scale o.surface o.scale,
           .wl_surface_attach o.surface o.buffer.buffer,
           .wl_surface_damage_buffer o.surface buffer_width buffer_height,
           .wl_surface_commit o.surface])

/-- The C function `output_done`. -/
def output_done (env : Env) (tick : ℕ) (state : wlrsetroot_state)
    (output : wlrsetroot_output) : wlrsetroot_output × ℕ × List Cmd :=
  if output.layer_surface = none then create_layer_surface env tick state output
  else (output, tick, [])

/-- The C function `output_scale`. -/
def output_scale (output : wlrsetroot_output) (scale : ℤ) : wlrsetroot_output :=
  { output with scale := scale }

/-- The calls made by the C function `destroy_output`, in order; the unlinking
`wl_list_remove` is the removal from `wlrsetroot_state.outputs` done where it is called. -/
def destroy_output (output : wlrsetroot_output) : List Cmd :=
  (match output.layer_surface with
    | some l => [Cmd.zwlr_layer_surface_v1_destroy l]
    | none => []) ++
  (match output.surface with
    | some s => [Cmd.wl_surface_destroy s]
    | none => []) ++
  (match output.wl_output with
    | some w => [Cmd.wl_output_destroy w]
    | none => []) ++
  (pool_buffer_destroy output.buffer).2 ++ [Cmd.free_output]

/-! ## main.c: the registry, the dispatch loop and `main` -/

/-- One recorded call together with the session (its `wl_name`) on whose behalf it was made;
calls of the registry handlers and of `main` itself carry no session. -/
abbrev LogEntry := Option ℕ × Cmd

/-- The whole program state: the C `state`, the counter of external calls and the calls made
so far (oldest first). -/
structure Sys where
  state : wlrsetroot_state
  tick : ℕ
  log : List LogEntry

/-- Events delivered by libwayland to the listeners installed by the program. Events of an
output or of its layer surface name the session by `wl_name`, which the server keeps unique
among the live globals. -/
inductive Event
  | global (name : ℕ) (interface : Interface) (version : ℕ)
  | global_remove (name : ℕ)
  | output_geometry (out : ℕ)
  | output_mode (out : ℕ)
  | output_done (out : ℕ)
  | output_scale (out : ℕ) (scale : ℤ)
  | output_name (out : ℕ)
  | output_description (out : ℕ)
  | layer_surface_configure (out : ℕ) (serial width height : ℕ)
  | layer_surface_closed (out : ℕ)
  deriving DecidableEq, Repr

/-- Walks the list `outputs` in order (`wl_list_for_each`) and runs `f` on each session,
threading the counter and collecting the calls, labelled with the session. -/
def for_each_output (f : wlrsetroot_output → ℕ → wlrsetroot_output × ℕ × List Cmd) :
    List wlrsetroot_output → ℕ → List wlrsetroot_output × ℕ × List LogEntry
  | [], tick => ([], tick, [])
  | o :: rest, tick =>
    let r := f o tick
    let rs := for_each_output f rest r.2.1
    (r.1 :: rs.1, rs.2.1, r.2.2.map (fun c => (some o.wl_name, c)) ++ rs.2.2)

/-- The C function `registry_global`. -/
def registry_global (env : Env) (sys : Sys) (name : ℕ) (interface : Interface)
    (_version : ℕ) : Sys :=
  match interface with
  | .wl_compositor =>
    { state := { sys.state with compositor := some sys.tick }, tick := sys.tick + 1,
      log := sys.log ++ [(none, .wl_registry_bind name .wl_compositor 4 sys.tick)] }
  | .wl_shm =>
    { state := { sys.state with shm := some sys.tick }, tick := sys.tick + 1,
      log := sys.log ++ [(none, .wl_registry_bind name .wl_shm 1 sys.tick)] }
  | .wl_output =>
    if env.alloc_ok sys.tick = false then { sys with tick := sys.tick + 1 }
    else
      let proxy := sys.tick + 1
      let output : wlrsetroot_output :=
        { wl_output := some proxy, wl_name := name, surface := none, layer_surface := none,
          buffer := { buffer := none, data := none, width := 0, height := 0, size := 0 },
          width := 0, height := 0, scale := 1, configured := false, configure_serial := 0 }
      { state := { sys.state with outputs := output :: sys.state.outputs },
        tick := sys.tick + 2,
        log := sys.log ++ [(none, .wl_registry_bind name .wl_output 4 proxy),
                           (none, .wl_output_add_listener proxy)] }
  | .zwlr_layer_shell_v1 =>
    { state := { sys.state with layer_shell := some sys.tick }, tick := sys.tick + 1,
      log := sys.log ++ [(none, .wl_registry_bind name .zwlr_layer_shell_v1 1 sys.tick)] }
  | .other => sys

/-- The loop of `registry_global_remove`: the first session with the given `wl_name` is
destroyed and unlinked. -/
def remove_output (name : ℕ) :
    List wlrsetroot_output → List wlrsetroot_output × List LogEntry
  | [] => ([], [])
  | o :: rest =>
    if o.wl_name = name then (rest, (destroy_output o).map (fun c => (some o.wl_name, c)))
    else
      let r := remove_output name rest
      (o :: r.1, r.2)

/-- The C function `registry_global_remove`. -/
def registry_global_remove (sys : Sys) (name : ℕ) : Sys :=
  let r := remove_output name sys.state.outputs
  { sys with state := { sys.state with outputs := r.1 }, log := sys.log ++ r.2 }

/-- Delivery of one event to its listener. -/
def deliver (env : Env) (sys : Sys) (e : Event) : Sys :=
  let on_output (out : ℕ)
      (f : wlrsetroot_output → ℕ → wlrsetroot_output × ℕ × List Cmd) : Sys :=
    let r := for_each_output
      (fun o tick => if o.wl_name = out then f o tick else (o, tick, []))
      sys.state.outputs sys.tick
    { state := { sys.state with outputs := r.1 }, tick := r.2.1, log := sys.log ++ r.2.2 }
  match e with
  | .global name interface version => registry_global env sys name interface version
  | .global_remove name => registry_global_remove sys name
  | .output_geometry _ => sys
  | .output_mode _ => sys
  | .output_done out => on_output out (fun o tick => output_done env tick sys.state o)
  | .output_scale out scale => on_output out (fun o tick => (output_scale o scale, tick, []))
  | .output_name _ => sys
  | .output_description _ => sys
  | .layer_surface_configure out serial width height =>
    on_output out (fun o tick => (layer_surface_configure o serial width height, tick, []))
  | .layer_surface_closed out =>
    on_output out (fun o tick => ((layer_surface_closed o).1, tick, (layer_surface_closed o).2))

/-- The body of the `while` loop of `main`: every session that is configured and has no
buffer is rendered. -/
def main_loop_body (env : Env) (sys : Sys) : Sys :=
  let r := for_each_output
    (fun o tick =>
      if o.configured = true ∧ o.buffer.buffer = none then render_output env tick sys.state o
      else (o, tick, []))
    sys.state.outputs sys.tick
  { state := { sys.state with outputs := r.1 }, tick := r.2.1, log := sys.log ++ r.2.2 }

/-- One successful `wl_display_dispatch` that delivers the events `batch`, followed by the
loop body. -/
def main_loop_iteration (env : Env) (sys : Sys) (batch : List Event) : Sys :=
  main_loop_body env
    (batch.foldl (deliver env)
      { sys with log := sys.log ++ [(none, .wl_display_dispatch true)] })

/-- The `while` loop of `main`. Each element of `dispatches` is the batch of events of one
successful `wl_display_dispatch`; after the last one the call fails (returns `-1`). -/
def main_loop (env : Env) : Sys → List (List Event) → Sys
  | sys, [] =>
    if sys.state.running = false then sys
    else { sys with log := sys.log ++ [(none, .wl_display_dispatch false)] }
  | sys, batch :: rest =>
    if sys.state.running = false then sys
    else main_loop env (main_loop_iteration env sys batch) rest

/-- The calls of the `wl_list_for_each_safe` loop at the label `cleanup`. -/
def destroy_outputs : List wlrsetroot_output → List LogEntry
  | [] => []
  | o :: rest => (destroy_output o).map (fun c => (some o.wl_name, c)) ++ destroy_outputs rest

/-- The code of `main` from the label `cleanup` to its `return 0`. -/
def cleanup (sys : Sys) : ℤ × Sys :=
  let opt (h : Option ℕ) (c : ℕ → Cmd) : List LogEntry :=
    match h with
    | some x => [(none, c x)]
    | none => []
  (0,
    { sys with
      state := { sys.state with outputs := [] }
      log := sys.log ++ destroy_outputs sys.state.outputs ++
        opt sys.state.layer_shell .zwlr_layer_shell_v1_destroy ++
        opt sys.state.shm .wl_shm_destroy ++
        opt sys.state.compositor .wl_compositor_destroy ++
        opt sys.state.registry .wl_registry_destroy ++
        opt sys.state.display .wl_display_disconnect ++
        [(none, .xbm_free)] })

/-- The C function `main` from `wl_display_connect` on. `state` is the state left by argument
parsing and bitmap loading, `connect` the result of `wl_display_connect`, `roundtrip1` and
`roundtrip2` the events delivered during the two round-trips and `dispatches` the batches of
the dispatch loop. Returns the exit status and the final program state. -/
def main (env : Env) (state : wlrsetroot_state) (connect : Option ℕ)
    (roundtrip1 roundtrip2 : List Event) (dispatches : List (List Event)) : ℤ × Sys :=
  match connect with
  | none => (1, { state := state, tick := 0, log := [(none, .xbm_free)] })
  | some display =>
    let sys0 : Sys :=
      { state := { state with display := some display, registry := some 0 }, tick := 1,
        log := [(none, .wl_display_get_registry 0), (none, .wl_display_roundtrip)] }
    let sys1 := roundtrip1.foldl (deliver env) sys0
    if sys1.state.compositor = none then cleanup sys1
    else if sys1.state.shm = none then cleanup sys1
    else if sys1.state.layer_shell = none then cleanup sys1
    else
      let sys2 := roundtrip2.foldl (deliver env)
        { sys1 with log := sys1.log ++ [(none, .wl_display_roundtrip)] }
      let sys3 : Sys := { sys2 with state := { sys2.state with running := true } }
      cleanup (main_loop env sys3 dispatches)

/-! ## Sample inputs -/

/-- An environment in which every allocation succeeds. -/
def env_ok : Env := { shm := fun _ => .mapped, alloc_ok := fun _ => true }

/-- The state that `main` sets up before parsing arguments: black background, white
foreground, solid fill, scale one. -/
def state_default : wlrsetroot_state :=
  { display := none, registry := none, compositor := none, shm := none, layer_shell := none,
    outputs := [], pattern := .PATTERN_NONE, xbm := none, mod_x := 0, mod_y := 0,
    fg_color := 0xFFFFFFFF, bg_color := 0xFF000000, pattern_scale := 1, reverse := false,
    running := false }

/-- The buffer fields of a session that was never rendered (zeroed by `calloc`). -/
def pool_buffer_zero : pool_buffer :=
  { buffer := none, data := none, width := 0, height := 0, size := 0 }

/-- Whether a recorded call is the start of a buffer allocation (`pool_buffer_create` begins
with `create_shm_file`). -/
def is_alloc : Cmd → Bool
  | .create_shm_file _ => true
  | _ => false

/-- The calls recorded for the session `name`. -/
def calls_of (name : ℕ) (log : List LogEntry) : List Cmd :=
  (log.filter (fun e => e.1 = some name)).map (fun e => e.2)

/-! ## Sample inputs and predicates used in the statements -/

/-- The default solid fill with `-rv`: colours swapped. -/
def state_reverse_solid : wlrsetroot_state := { state_default with reverse := true }

/-- The default state with the checkerboard pattern (`-gray`), scale one. -/
def state_gray : wlrsetroot_state := { state_default with pattern := .PATTERN_GRAY }

/-- The grid pattern `-mod 16 16` with `-scale 2`. -/
def state_mod16_scale2 : wlrsetroot_state :=
  { state_default with pattern := .PATTERN_MOD, mod_x := 16, mod_y := 16, pattern_scale := 2 }

/-- The grid pattern `-mod 4 4`, scale one. -/
def state_mod4 : wlrsetroot_state :=
  { state_default with pattern := .PATTERN_MOD, mod_x := 4, mod_y := 4 }

/-- The buffer that a successful `pool_buffer_create` leaves for the given size when nothing
wraps. -/
def buffer_of (width height : ℕ) : pool_buffer :=
  { buffer := some 0, data := some (fun _ => 0), width := width, height := height,
    size := width * height * 4 }

/-- An image whose width is the largest `unsigned int` (what `xbm_load` stores for
`#define w_width -1`), two rows high, with a bit array of `ceil(width / 8) * height` bytes
of which only the first is non-zero. -/
def image_wide : xbm_image :=
  { width := 4294967295, height := 2, bits := 1 :: List.replicate 1073741823 0,
    hotspot_x := -1, hotspot_y := -1 }

/-- A 3x2 bitmap. -/
def image_x : xbm_image :=
  { width := 3, height := 2, bits := [0x05, 0x02], hotspot_x := -1, hotspot_y := -1 }

/-- The globals of a compositor without the layer-shell protocol, with one output. -/
def roundtrip_no_layer_shell : List Event :=
  [.global 1 .wl_compositor 4, .global 2 .wl_shm 1, .global 3 .wl_output 4]

/-- The globals of a compositor with all three capabilities and one output (name 3). -/
def startup_events : List Event :=
  [.global 1 .wl_compositor 4, .global 2 .wl_shm 1, .global 3 .wl_output 4,
   .global 4 .zwlr_layer_shell_v1 1]

/-- The program state when `main` enters its loop after `startup_events` and the
description of output 3. -/
def sys_started : Sys :=
  [Event.output_done 3].foldl (deliver env_ok)
    (startup_events.foldl (deliver env_ok)
      { state := { state_default with display := some 100, registry := some 0, running := true },
        tick := 1, log := [] })

/-- The state after the first loop iteration, which delivers `configure(serial 1, 2, 2)`. -/
def sys_configured : Sys :=
  main_loop_iteration env_ok sys_started [.layer_surface_configure 3 1 2 2]

/-- A session as `registry_global` creates it. -/
def output_fresh : wlrsetroot_output :=
  { wl_output := some 4, wl_name := 3, surface := none, layer_surface := none,
    buffer := pool_buffer_zero, width := 0, height := 0, scale := 1, configured := false,
    configure_serial := 0 }

/-- The fields of a session other than the pixel contents. -/
structure output_view where
  wl_name : ℕ
  surface : Option ℕ
  layer_surface : Option ℕ
  buffer : Option ℕ
  mapped : Bool
  buffer_width : ℕ
  buffer_height : ℕ
  width : ℕ
  height : ℕ
  scale : ℤ
  configured : Bool
  configure_serial : ℕ
  deriving DecidableEq, Repr

/-- The observable part of a session. -/
def view (o : wlrsetroot_output) : output_view :=
  { wl_name := o.wl_name, surface := o.surface, layer_surface := o.layer_surface,
    buffer := o.buffer.buffer, mapped := o.buffer.data.isSome,
    buffer_width := o.buffer.width, buffer_height := o.buffer.height,
    width := o.width, height := o.height, scale := o.scale, configured := o.configured,
    configure_serial := o.configure_serial }

/-- Whether a recorded call creates a `wl_buffer`. -/
def is_create_buffer : Cmd → Bool
  | .wl_shm_pool_create_buffer _ _ _ _ _ => true
  | _ => false

/-- Whether a recorded call acknowledges a configure serial. -/
def is_ack : Cmd → Bool
  | .zwlr_layer_surface_v1_ack_configure _ _ => true
  | _ => false

/-- No recorded call of the session `name` starts a buffer allocation. -/
def NoAlloc (name : ℕ) (log : List LogEntry) : Prop :=
  ∀ e ∈ log, e.1 = some name → is_alloc e.2 = false

/-- Every session called `name` has `configured = false`. -/
def Unconfigured (name : ℕ) (outputs : List wlrsetroot_output) : Prop :=
  ∀ o ∈ outputs, o.wl_name = name → o.configured = false

/-- Whether an event is a configure event of the session `name`. -/
def is_configure_for (name : ℕ) : Event → Bool
  | .layer_surface_configure out _ _ _ => out == name
  | _ => false

/-- The invariant of a session that has not been configured: it is unconfigured and has
allocated nothing. -/
def Quiet (name : ℕ) (sys : Sys) : Prop :=
  Unconfigured name sys.state.outputs ∧ NoAlloc name sys.log

/-- An environment in which every shared-memory file fails to be created. -/
def env_no_shm : Env := { shm := fun _ => .shm_open_failed, alloc_ok := fun _ => true }

/-- A session that holds a display handle, a surface, a layer surface and a 2x2 buffer. -/
def output_full : wlrsetroot_output :=
  { wl_output := some 4, wl_name := 3, surface := some 6, layer_surface := some 8,
    buffer := { buffer := some 9, data := some (fun _ => 0), width := 2, height := 2,
                size := 16 },
    width := 2, height := 2, scale := 1, configured := true, configure_serial := 1 }

/-- A configured 2x2 session with its surfaces but no buffer yet. -/
def output_unrendered : wlrsetroot_output :=
  { wl_output := some 4, wl_name := 3, surface := some 6, layer_surface := some 8,
    buffer := pool_buffer_zero, width := 2, height := 2, scale := 1, configured := true,
    configure_serial := 1 }

/-- The program state right after `wl_display_get_registry`, before any event. -/
def sys_initial : Sys :=
  { state := { state_default with display := some 100, registry := some 0 }, tick := 1,
    log := [] }

/-- Whether a recorded call puts a buffer on screen or answers the server: acknowledge,
set-scale, attach, damage or commit. -/
def is_present : Cmd → Bool
  | .zwlr_layer_surface_v1_ack_configure _ _ => true
  | .wl_surface_set_buffer_scale _ _ => true
  | .wl_surface_attach _ _ => true
  | .wl_surface_damage_buffer _ _ _ => true
  | .wl_surface_commit _ => true
  | _ => false

/-- Whether a log entry is a `wl_registry_bind` of the interface `i`. -/
def is_bind (i : Interface) (e : LogEntry) : Bool :=
  match e.2 with
  | .wl_registry_bind _ j _ _ => decide (j = i)
  | _ => false

/-- The number of binds of the interface `i` recorded in a log. -/
def bind_count (i : Interface) (log : List LogEntry) : ℕ := (log.filter (is_bind i)).length

/-- The number of announcements of the interface `i` in a list of global-discovery events,
each given by name, interface and version. -/
def announcements (i : Interface) (globals : List (ℕ × Interface × ℕ)) : ℕ :=
  (globals.filter (fun g => decide (g.2.1 = i))).length

/-- Delivery of a sequence of global-discovery events to `registry_global`. -/
def registry_globals (env : Env) (sys : Sys) (globals : List (ℕ × Interface × ℕ)) : Sys :=
  globals.foldl (fun s g => registry_global env s g.1 g.2.1 g.2.2) sys

/-! ## binary32 arithmetic on whole numbers -/

/-- Zero is a binary32 value. -/
theorem f32_round_zero : f32_round 0 = 0 := by simp [f32_round]

/-- Integers below `2 ^ 24` are binary32 values. -/
theorem f32_round_natCast (n : ℕ) (h : n < 2 ^ 24) : f32_round (n : ℚ) = n := by
  rcases Nat.eq_zero_or_pos n with rfl | hpos
  · simp [f32_round]
  · have hq : ¬ ((n : ℚ) ≤ 0) := by
      have : (0 : ℚ) < n := by exact_mod_cast hpos
      exact not_le.mpr this
    have hlog : Nat.log 2 n < 24 := Nat.log_lt_of_lt_pow (by omega) h
    obtain ⟨k, hk⟩ : ∃ k : ℕ, Int.log 2 (n : ℚ) - 23 = -(k : ℤ) := by
      refine ⟨23 - Nat.log 2 n, ?_⟩
      rw [Int.log_natCast]
      omega
    have ht : (n : ℚ) / (2 : ℚ) ^ (-(k : ℤ)) = (((n * 2 ^ k : ℕ) : ℤ) : ℚ) := by
      rw [zpow_neg, zpow_natCast]
      push_cast
      field_simp
    unfold f32_round
    rw [if_neg hq]
    simp only [hk, ht, Int.floor_intCast, sub_self]
    have h2 : ((2 : ℚ) ^ k) ≠ 0 := by positivity
    rw [if_pos (by norm_num)]
    rw [zpow_neg, zpow_natCast]
    push_cast
    field_simp

/-- Rounding an integer of at least `2 ^ 24` gives at least `2 ^ 24`. -/
theorem f32_round_natCast_ge (n : ℕ) (h : 2 ^ 24 ≤ n) : (2 : ℚ) ^ 24 ≤ f32_round (n : ℚ) := by
  have hpos : 0 < n := lt_of_lt_of_le (by norm_num) h
  have hq : ¬ ((n : ℚ) ≤ 0) := by
    have : (0 : ℚ) < n := by exact_mod_cast hpos
    exact not_le.mpr this
  have hlog : 24 ≤ Nat.log 2 n := (Nat.pow_le_iff_le_log (by norm_num) (by omega)).mp h
  have hle : 2 ^ Nat.log 2 n ≤ n := Nat.pow_log_le_self 2 (by omega)
  obtain ⟨k, hk, hk1⟩ : ∃ k : ℕ, Int.log 2 (n : ℚ) - 23 = (k : ℤ) ∧ Nat.log 2 n = k + 23 := by
    refine ⟨Nat.log 2 n - 23, ?_, by omega⟩
    rw [Int.log_natCast]
    omega
  have hk2 : 1 ≤ k := by omega
  unfold f32_round
  rw [if_neg hq]
  simp only [hk, zpow_natCast]
  have h2k : (0 : ℚ) < 2 ^ k := by positivity
  have ht : ((2 ^ 23 : ℤ) : ℚ) ≤ (n : ℚ) / 2 ^ k := by
    rw [le_div_iff₀ h2k]
    have : (2 : ℚ) ^ 23 * 2 ^ k ≤ n := by
      have h3 : (2 ^ (k + 23) : ℕ) ≤ n := by rw [← hk1]; exact hle
      have h4 : ((2 ^ (k + 23) : ℕ) : ℚ) ≤ (n : ℚ) := by exact_mod_cast h3
      calc (2 : ℚ) ^ 23 * 2 ^ k = ((2 ^ (k + 23) : ℕ) : ℚ) := by push_cast; ring
        _ ≤ n := h4
    push_cast
    exact this
  have hm : (2 ^ 23 : ℤ) ≤ ⌊(n : ℚ) / 2 ^ k⌋ := Int.le_floor.mpr ht
  have hm' : (2 ^ 23 : ℤ) ≤
      (if (n : ℚ) / 2 ^ k - (⌊(n : ℚ) / 2 ^ k⌋ : ℚ) < 1 / 2 then ⌊(n : ℚ) / 2 ^ k⌋
        else if 1 / 2 < (n : ℚ) / 2 ^ k - (⌊(n : ℚ) / 2 ^ k⌋ : ℚ) then ⌊(n : ℚ) / 2 ^ k⌋ + 1
        else if ⌊(n : ℚ) / 2 ^ k⌋ % 2 = 0 then ⌊(n : ℚ) / 2 ^ k⌋
        else ⌊(n : ℚ) / 2 ^ k⌋ + 1) := by
    split_ifs <;> omega
  have hmq : ((2 : ℚ) ^ 23) ≤ ((if (n : ℚ) / 2 ^ k - (⌊(n : ℚ) / 2 ^ k⌋ : ℚ) < 1 / 2 then ⌊(n : ℚ) / 2 ^ k⌋
        else if 1 / 2 < (n : ℚ) / 2 ^ k - (⌊(n : ℚ) / 2 ^ k⌋ : ℚ) then ⌊(n : ℚ) / 2 ^ k⌋ + 1
        else if ⌊(n : ℚ) / 2 ^ k⌋ % 2 = 0 then ⌊(n : ℚ) / 2 ^ k⌋
        else ⌊(n : ℚ) / 2 ^ k⌋ + 1 : ℤ) : ℚ) := by
    exact_mod_cast hm'
  have h2k2 : (2 : ℚ) ≤ 2 ^ k := by
    calc (2 : ℚ) = 2 ^ 1 := by norm_num
      _ ≤ 2 ^ k := pow_le_pow_right₀ (by norm_num) hk2
  calc (2 : ℚ) ^ 24 = 2 ^ 23 * 2 := by norm_num
    _ ≤ _ := mul_le_mul hmq h2k2 (by norm_num) (le_trans (by positivity) hmq)

/-- The integer `2 ^ 24` is a binary32 value. -/
theorem f32_round_16777216 : f32_round 16777216 = 16777216 := by
  have hlog : Int.log 2 (16777216 : ℚ) = 24 := by
    have : (16777216 : ℚ) = ((16777216 : ℕ) : ℚ) := by norm_num
    rw [this, Int.log_natCast]
    have : Nat.log 2 16777216 = 24 := Nat.log_eq_of_pow_le_of_lt_pow (by norm_num) (by norm_num)
    rw [this]; rfl
  unfold f32_round
  rw [if_neg (by norm_num), hlog]
  norm_num

/-- The integer `2 ^ 24 + 1` is not a binary32 value, it rounds to `2 ^ 24`. -/
theorem f32_round_16777217 : f32_round 16777217 = 16777216 := by
  have hlog : Int.log 2 (16777217 : ℚ) = 24 := by
    have : (16777217 : ℚ) = ((16777217 : ℕ) : ℚ) := by norm_num
    rw [this, Int.log_natCast]
    have : Nat.log 2 16777217 = 24 := Nat.log_eq_of_pow_le_of_lt_pow (by norm_num) (by norm_num)
    rw [this]; rfl
  unfold f32_round
  rw [if_neg (by norm_num), hlog]
  norm_num

/-- On whole numbers `fmodf` is the remainder. -/
theorem fmodf_natCast (a b : ℕ) : fmodf (a : ℚ) (b : ℚ) = ((a % b : ℕ) : ℚ) := by
  unfold fmodf
  have h := Rat.floor_intCast_div_natCast (a : ℤ) b
  simp only [Int.cast_natCast] at h
  rw [h]
  have h2 : (a : ℤ) = b * ((a : ℤ) / b) + (a : ℤ) % b := (Int.ediv_add_emod _ _).symm
  have h3 : ((a : ℤ) : ℚ) = ((b * ((a : ℤ) / b) + (a : ℤ) % b : ℤ) : ℚ) := by rw [← h2]
  push_cast at h3
  have h4 : (((a : ℤ) % (b : ℤ) : ℤ) : ℚ) = ((a % b : ℕ) : ℚ) := by
    rw [(Int.natCast_mod a b).symm]; exact Int.cast_natCast _
  rw [h4] at h3
  linarith

/-- A value below the modulus is its own `fmodf` remainder. -/
theorem fmodf_of_lt (a c : ℚ) (ha : 0 ≤ a) (hac : a < c) : fmodf a c = a := by
  unfold fmodf
  have hc : 0 < c := lt_of_le_of_lt ha hac
  have h0 : ⌊a / c⌋ = 0 := by
    rw [Int.floor_eq_zero_iff]
    exact ⟨div_nonneg ha hc.le, (div_lt_one hc).mpr hac⟩
  rw [h0]; simp

/-- Truncating a whole number that fits 32 bits gives it back. -/
theorem u32_of_f32_natCast (n : ℕ) (h : n < 2 ^ 32) : u32_of_f32 (n : ℚ) = n := by
  unfold u32_of_f32
  have : ⌊(n : ℚ)⌋ = (n : ℤ) := by exact_mod_cast Int.floor_natCast n
  rw [this, Int.toNat_natCast]
  exact Nat.mod_eq_of_lt h

/-- At scale one a device coordinate below `2 ^ 24` wraps to `x % w`. -/
theorem wrap_scale_one (x w : ℕ) (hx : x < 2 ^ 24) (hw : 0 < w) :
    u32_of_f32 (fmodf (f32_div (f32_of_u32 x) 1) (f32_of_u32 w)) = x % w := by
  have hx1 : f32_div (f32_of_u32 x) 1 = (x : ℚ) := by
    unfold f32_div f32_of_u32
    rw [f32_round_natCast x hx, div_one, f32_round_natCast x hx]
  rw [hx1]
  rcases Nat.lt_or_ge w (2 ^ 24) with hlt | hge
  · unfold f32_of_u32
    rw [f32_round_natCast w hlt, fmodf_natCast x w]
    exact u32_of_f32_natCast _ (lt_of_lt_of_le (Nat.mod_lt _ hw) (by omega))
  · have h1 := f32_round_natCast_ge w hge
    have hxq : (x : ℚ) < 2 ^ 24 := by exact_mod_cast hx
    unfold f32_of_u32
    rw [fmodf_of_lt _ _ (by positivity) (lt_of_lt_of_le hxq h1)]
    rw [u32_of_f32_natCast x (by omega)]
    exact (Nat.mod_eq_of_lt (by omega)).symm

/-- At scale one a device coordinate below `2 ^ 24` is passed on unchanged. -/
theorem div_scale_one (x : ℕ) (hx : x < 2 ^ 24) :
    u32_of_f32 (f32_div (f32_of_u32 x) 1) = x := by
  unfold f32_div f32_of_u32
  rw [f32_round_natCast x hx, div_one, f32_round_natCast x hx]
  exact u32_of_f32_natCast x (by omega)

/-- A device coordinate below `2 ^ 24` whose quotient by the scale is a whole number below
`2 ^ 24` is mapped to that quotient exactly. -/
theorem scaled_coord_exact (x r : ℕ) (s : ℚ) (hx : x < 2 ^ 24) (hr : r < 2 ^ 24)
    (hq : (x : ℚ) / s = r) : u32_of_f32 (f32_div (f32_of_u32 x) s) = r := by
  unfold f32_div f32_of_u32
  rw [f32_round_natCast x hx, hq, f32_round_natCast r hr]
  exact u32_of_f32_natCast r (by omega)

/-! ## Loops of stores -/

/-- Reading the cell just written. -/
theorem store_same (px : PixelMem) (i v : ℕ) : store px i v i = v := by
  simp [store]

/-- Reading another cell than the one written. -/
theorem store_other (px : PixelMem) (i v k : ℕ) (h : k ≠ i) : store px i v k = px k := by
  simp [store, h]

/-- A loop of stores leaves every cell alone that none of its indices hits. -/
theorem foldl_store_frame (f v : ℕ → ℕ) (n k : ℕ) (px : PixelMem)
    (h : ∀ i, i < n → f i ≠ k) :
    (List.range n).foldl (fun p i => store p (f i) (v i)) px k = px k := by
  induction n with
  | zero => simp
  | succ n ih =>
    rw [List.range_succ, List.foldl_append]
    simp only [List.foldl_cons, List.foldl_nil]
    rw [store_other _ _ _ _ (fun hk => h n (Nat.lt_succ_self n) hk.symm)]
    exact ih (fun i hi => h i (Nat.lt_succ_of_lt hi))

/-- After a loop of stores a cell holds the value of the last store that hit it. -/
theorem foldl_store_hit (f v : ℕ → ℕ) (n i : ℕ) (px : PixelMem) (hi : i < n)
    (hlast : ∀ j, i < j → j < n → f j ≠ f i) :
    (List.range n).foldl (fun p i => store p (f i) (v i)) px (f i) = v i := by
  induction n with
  | zero => omega
  | succ n ih =>
    rw [List.range_succ, List.foldl_append]
    simp only [List.foldl_cons, List.foldl_nil]
    rcases Nat.lt_or_ge i n with hlt | hge
    · rw [store_other _ _ _ _ (fun hk => hlast n hlt (Nat.lt_succ_self n) hk.symm)]
      exact ih hlt (fun j hij hj => hlast j hij (Nat.lt_succ_of_lt hj))
    · have : i = n := by omega
      subst this
      exact store_same _ _ _

/-- The nested loops of stores: frame. -/
theorem foldl_rows_frame (idx col : ℕ → ℕ → ℕ) (W H k : ℕ) (px : PixelMem)
    (h : ∀ y x, y < H → x < W → idx y x ≠ k) :
    (List.range H).foldl (fun p y =>
      (List.range W).foldl (fun p x => store p (idx y x) (col y x)) p) px k = px k := by
  induction H with
  | zero => simp
  | succ H ih =>
    rw [List.range_succ, List.foldl_append]
    simp only [List.foldl_cons, List.foldl_nil]
    rw [foldl_store_frame (idx H) (col H) W k _ (fun x hx => h H x (Nat.lt_succ_self H) hx)]
    exact ih (fun y x hy hx => h y x (Nat.lt_succ_of_lt hy) hx)

/-- The nested loops of stores: a cell holds the value of the last store that hit it. -/
theorem foldl_rows_hit (idx col : ℕ → ℕ → ℕ) (W H y x : ℕ) (px : PixelMem)
    (hy : y < H) (hx : x < W)
    (hlast : ∀ y' x', y' < H → x' < W → (y < y' ∨ (y' = y ∧ x < x')) →
      idx y' x' ≠ idx y x) :
    (List.range H).foldl (fun p y =>
      (List.range W).foldl (fun p x => store p (idx y x) (col y x)) p) px (idx y x)
      = col y x := by
  induction H with
  | zero => omega
  | succ H ih =>
    rw [List.range_succ, List.foldl_append]
    simp only [List.foldl_cons, List.foldl_nil]
    rcases Nat.lt_or_ge y H with hlt | hge
    · rw [foldl_store_frame (idx H) (col H) W (idx y x) _
        (fun x' hx' => hlast H x' (Nat.lt_succ_self H) hx' (Or.inl hlt))]
      exact ih hlt (fun y' x' hy' hx' hl => hlast y' x' (Nat.lt_succ_of_lt hy') hx' hl)
    · have : y = H := by omega
      subst this
      exact foldl_store_hit (idx y) (col y) W x _ hx
        (fun j hj hjW => hlast y j (Nat.lt_succ_self y) hjW (Or.inr ⟨rfl, hj⟩))

/-- Without 32-bit wrap-around (`width * height ≤ 2 ^ 32`) the renderer leaves in cell
`y * width + x` the colour selected by the classification of `(x, y)`. -/
theorem render_tiled_pattern_pixel (state : wlrsetroot_state) (buffer : pool_buffer)
    (pixels : PixelMem) (x y : ℕ) (hp : state.pattern ≠ .PATTERN_NONE)
    (hsz : buffer.width * buffer.height ≤ 2 ^ 32) (hx : x < buffer.width)
    (hy : y < buffer.height) :
    render_tiled_pattern state buffer pixels (y * buffer.width + x) =
      if pattern_pixel state x y ≠ 0
      then (if state.reverse then state.fg_color else state.bg_color)
      else (if state.reverse then state.bg_color else state.fg_color) := by
  have hb : ∀ y' x', y' < buffer.height → x' < buffer.width →
      y' * buffer.width + x' < 2 ^ 32 := by
    intro y' x' hy' hx'
    have h1 : (y' + 1) * buffer.width ≤ buffer.height * buffer.width :=
      Nat.mul_le_mul_right _ hy'
    have h2 : buffer.height * buffer.width = buffer.width * buffer.height := Nat.mul_comm _ _
    have h3 : (y' + 1) * buffer.width = y' * buffer.width + buffer.width := by ring
    omega
  unfold render_tiled_pattern
  simp only [if_neg hp]
  have hidx : (y * buffer.width + x) % 2 ^ 32 = y * buffer.width + x :=
    Nat.mod_eq_of_lt (hb y x hy hx)
  have key := foldl_rows_hit (fun y x => (y * buffer.width + x) % 2 ^ 32)
    (fun y x => if pattern_pixel state x y ≠ 0
      then (if state.reverse then state.fg_color else state.bg_color)
      else (if state.reverse then state.bg_color else state.fg_color))
    buffer.width buffer.height y x pixels hy hx (by
      intro y' x' hy' hx' hl
      simp only
      rw [Nat.mod_eq_of_lt (hb y' x' hy' hx'), hidx]
      rcases hl with hl | ⟨rfl, hl⟩
      · have h1 : (y + 1) * buffer.width ≤ y' * buffer.width := Nat.mul_le_mul_right _ hl
        have h3 : (y + 1) * buffer.width = y * buffer.width + buffer.width := by ring
        omega
      · omega)
  simp only [hidx] at key
  exact key

/-! ## Pattern lookups -/

/-- The grid tile repeats every 16 columns. -/
theorem mod_get_pixel_period_x (mod_x mod_y : ℤ) (x y : ℕ) :
    mod_get_pixel mod_x mod_y (x + 16) y = mod_get_pixel mod_x mod_y x y := by
  simp [mod_get_pixel]

/-- The grid tile repeats every 16 rows. -/
theorem mod_get_pixel_period_y (mod_x mod_y : ℤ) (x y : ℕ) :
    mod_get_pixel mod_x mod_y x (y + 16) = mod_get_pixel mod_x mod_y x y := by
  simp [mod_get_pixel]

/-- At scale one the grid classification of a device coordinate below `2 ^ 24` is
`mod_get_pixel` at that coordinate. -/
theorem pattern_pixel_mod_scale_one (state : wlrsetroot_state) (x y : ℕ)
    (hp : state.pattern = .PATTERN_MOD) (hs : state.pattern_scale = 1)
    (hx : x < 2 ^ 24) (hy : y < 2 ^ 24) :
    pattern_pixel state x y = mod_get_pixel state.mod_x state.mod_y x y := by
  unfold pattern_pixel
  simp only [hp, hs]
  rw [div_scale_one x hx, div_scale_one y hy]

/-- A positive `int` keeps its value when converted to `unsigned int`. -/
theorem u32_of_int_eq (m : ℤ) (h1 : 1 ≤ m) (h2 : m < 2 ^ 31) :
    ((u32_of_int m : ℕ) : ℤ) = m := by
  unfold u32_of_int
  rw [Int.emod_eq_of_lt (by omega) (by omega)]
  exact Int.toNat_of_nonneg (by omega)

/-- The grid rule: a cell is marked exactly if its wrapped row or column is a multiple of the
spacing. -/
theorem mod_get_pixel_iff (mod_x mod_y : ℤ) (x y : ℕ) (hx1 : 1 ≤ mod_x) (hx2 : mod_x < 2 ^ 31)
    (hy1 : 1 ≤ mod_y) (hy2 : mod_y < 2 ^ 31) :
    mod_get_pixel mod_x mod_y x y = 1 ↔
      (((y % 16 : ℕ) : ℤ) % mod_y = 0 ∨ ((x % 16 : ℕ) : ℤ) % mod_x = 0) := by
  have ex := u32_of_int_eq mod_x hx1 hx2
  have ey := u32_of_int_eq mod_y hy1 hy2
  have cx : ((x % 16 : ℕ) : ℤ) % mod_x = 0 ↔ (x % 16) % u32_of_int mod_x = 0 := by
    generalize u32_of_int mod_x = n at ex
    subst ex
    rw [← Int.natCast_mod, Int.natCast_eq_zero]
  have cy : ((y % 16 : ℕ) : ℤ) % mod_y = 0 ↔ (y % 16) % u32_of_int mod_y = 0 := by
    generalize u32_of_int mod_y = n at ey
    subst ey
    rw [← Int.natCast_mod, Int.natCast_eq_zero]
  rw [cx, cy]
  unfold mod_get_pixel
  simp only
  split_ifs with h1 h2
  · simp [h1]
  · simp [h2]
  · simp [h1, h2]

/-- Device row 0 is marked by every grid pattern, at every scale. -/
theorem pattern_pixel_origin_row (state : wlrsetroot_state) (x : ℕ)
    (hp : state.pattern = .PATTERN_MOD) : pattern_pixel state x 0 = 1 := by
  have h0 : u32_of_f32 (f32_div (f32_of_u32 0) state.pattern_scale) = 0 := by
    unfold f32_div f32_of_u32
    simp [f32_round_zero, u32_of_f32]
  unfold pattern_pixel
  simp only [hp]
  rw [h0]
  simp [mod_get_pixel]

/-- The checkerboard lookup on wrapped coordinates, spelled out on the tile bytes. -/
theorem gray_get_pixel_tile (x y : ℕ) :
    gray_get_pixel (x % 2) (y % 2) =
      (([0x01, 0x02] : List ℕ).getD (y % 2) 0 >>> (x % 2)) &&& 1 := by
  rcases Nat.mod_two_eq_zero_or_one x with hx | hx <;>
    rcases Nat.mod_two_eq_zero_or_one y with hy | hy <;>
    rw [hx, hy] <;> decide

/-- Every read of an all-zero array gives zero. -/
theorem getD_replicate_zero (n k : ℕ) : (List.replicate n 0).getD k 0 = 0 := by
  induction n generalizing k with
  | zero => simp
  | succ n ih =>
    cases k with
    | zero => simp [List.replicate_succ]
    | succ k => simp [List.replicate_succ, ih k]

/-- The result of `xbm_get_pixel` is 0 or 1. -/
theorem xbm_get_pixel_le_one (image : xbm_image) (x y : ℕ) : xbm_get_pixel image x y ≤ 1 := by
  unfold xbm_get_pixel
  split_ifs
  · exact Nat.zero_le 1
  · dsimp only
    rw [Nat.and_one_is_mod]
    omega

/-- Without wrap-around in `width + 7` the lookup reads the bit `x % 8` of the byte
`y * ceil(width / 8) + x / 8`. -/
theorem xbm_get_pixel_spec (image : xbm_image) (x y : ℕ) (hw : image.width + 7 < 2 ^ 32)
    (hh : image.height < 2 ^ 32) :
    xbm_get_pixel image x y =
      if x ≥ image.width ∨ y ≥ image.height then 0
      else (image.bits.getD (y * ((image.width + 7) / 8) + x / 8) 0 / 2 ^ (x % 8)) % 2 := by
  unfold xbm_get_pixel
  split_ifs with h
  · rfl
  · push_neg at h
    have hbpr : xbm_bytes_per_row image.width = (image.width + 7) / 8 := by
      unfold xbm_bytes_per_row; rw [Nat.mod_eq_of_lt hw]
    have hidx : xbm_byte_index image x y = y * ((image.width + 7) / 8) + x / 8 := by
      unfold xbm_byte_index
      rw [hbpr]
      apply Nat.mod_eq_of_lt
      have h1 : (image.width + 7) / 8 < 2 ^ 29 := by omega
      have h2 : y * ((image.width + 7) / 8) ≤ 2 ^ 32 * 2 ^ 29 :=
        Nat.mul_le_mul (by omega) (by omega)
      have h3 : x / 8 < 2 ^ 29 := by omega
      have h4 : (2 : ℕ) ^ 32 * 2 ^ 29 + 2 ^ 29 < 2 ^ 64 := by norm_num
      omega
    dsimp only
    rw [hidx, Nat.and_one_is_mod, Nat.shiftRight_eq_div_pow]

/-! ## Sessions, the dispatch loop and `main` -/

/-- Once the display is connected, every path of `main` returns `0`. -/
theorem main_exit_status_zero (env : Env) (state : wlrsetroot_state) (display : ℕ)
    (roundtrip1 roundtrip2 : List Event) (dispatches : List (List Event)) :
    (main env state (some display) roundtrip1 roundtrip2 dispatches).1 = 0 := by
  unfold main
  simp only
  split_ifs <;> rfl

/-- A failed `wl_display_connect` makes `main` return `1`. -/
theorem main_connect_failure (env : Env) (state : wlrsetroot_state)
    (roundtrip1 roundtrip2 : List Event) (dispatches : List (List Event)) :
    (main env state none roundtrip1 roundtrip2 dispatches).1 = 1 := rfl

/-- The function `pool_buffer_destroy` allocates nothing. -/
theorem pool_buffer_destroy_no_alloc (buf : pool_buffer) :
    ∀ c ∈ (pool_buffer_destroy buf).2, is_alloc c = false := by
  intro c hc
  unfold pool_buffer_destroy at hc
  cases hb : buf.buffer <;> cases hd : buf.data <;> simp [hb, hd] at hc
  · subst hc; rfl
  · subst hc; rfl
  · rcases hc with rfl | rfl <;> rfl

/-- The function `destroy_output` allocates nothing. -/
theorem destroy_output_no_alloc (o : wlrsetroot_output) :
    ∀ c ∈ destroy_output o, is_alloc c = false := by
  intro c hc
  unfold destroy_output at hc
  simp only [List.mem_append, List.mem_singleton] at hc
  rcases hc with (((hc | hc) | hc) | hc) | hc
  · cases h : o.layer_surface <;> simp [h] at hc
    subst hc; rfl
  · cases h : o.surface <;> simp [h] at hc
    subst hc; rfl
  · cases h : o.wl_output <;> simp [h] at hc
    subst hc; rfl
  · exact pool_buffer_destroy_no_alloc _ c hc
  · subst hc; rfl

/-- The fields of a session after `layer_surface_closed`: handles and buffer absent,
`configured` and the negotiated size untouched. -/
theorem layer_surface_closed_fields (o : wlrsetroot_output) :
    (layer_surface_closed o).1.layer_surface = none ∧
    (layer_surface_closed o).1.surface = none ∧
    (layer_surface_closed o).1.buffer.buffer = none ∧
    (layer_surface_closed o).1.buffer.data = none ∧
    (layer_surface_closed o).1.configured = o.configured ∧
    (layer_surface_closed o).1.width = o.width ∧
    (layer_surface_closed o).1.height = o.height ∧
    (layer_surface_closed o).1.wl_name = o.wl_name := by
  unfold layer_surface_closed pool_buffer_destroy
  cases h1 : o.layer_surface <;> cases h2 : o.surface <;> cases h3 : o.buffer.buffer <;>
    cases h4 : o.buffer.data <;> simp [h1, h2, h3, h4]

/-- The function `layer_surface_closed` allocates nothing. -/
theorem layer_surface_closed_no_alloc (o : wlrsetroot_output) :
    ∀ c ∈ (layer_surface_closed o).2, is_alloc c = false := by
  intro c hc
  unfold layer_surface_closed at hc
  simp only [List.mem_append] at hc
  rcases hc with hc | hc
  · cases h1 : o.layer_surface <;> cases h2 : o.surface <;> simp [h1, h2] at hc
    · subst hc; rfl
    · subst hc; rfl
    · rcases hc with rfl | rfl <;> rfl
  · exact pool_buffer_destroy_no_alloc _ c hc

/-- The function `create_layer_surface` keeps the name and the `configured` flag and allocates
no buffer. -/
theorem create_layer_surface_fields (env : Env) (tick : ℕ) (state : wlrsetroot_state)
    (o : wlrsetroot_output) :
    (create_layer_surface env tick state o).1.wl_name = o.wl_name ∧
    (create_layer_surface env tick state o).1.configured = o.configured ∧
    ∀ c ∈ (create_layer_surface env tick state o).2.2, is_alloc c = false := by
  unfold create_layer_surface
  split_ifs
  · refine ⟨rfl, rfl, ?_⟩
    intro c hc
    simp at hc
    subst hc; rfl
  · refine ⟨rfl, rfl, ?_⟩
    intro c hc
    simp at hc
    rcases hc with rfl | rfl | rfl | rfl | rfl | rfl <;> rfl
  · refine ⟨rfl, rfl, ?_⟩
    intro c hc
    simp at hc
    rcases hc with rfl | rfl | rfl | rfl | rfl | rfl | rfl | rfl | rfl | rfl <;> rfl

/-- The function `render_output` keeps the name of the session. -/
theorem render_output_wl_name (env : Env) (tick : ℕ) (state : wlrsetroot_state)
    (o : wlrsetroot_output) : (render_output env tick state o).1.wl_name = o.wl_name := by
  unfold render_output
  dsimp only
  split_ifs <;> rfl

/-- A session that is not ready is left alone by `render_output`. -/
theorem render_output_idle (env : Env) (tick : ℕ) (state : wlrsetroot_state)
    (o : wlrsetroot_output) (h : o.configured = false ∨ o.width = 0 ∨ o.height = 0) :
    render_output env tick state o = (o, tick, []) := by
  unfold render_output
  rw [if_pos h]

/-- The function `render_output` allocates only for a configured session with non-zero size. -/
theorem render_output_alloc_only_when_ready (env : Env) (tick : ℕ) (state : wlrsetroot_state)
    (o : wlrsetroot_output) :
    (∀ c ∈ (render_output env tick state o).2.2, is_alloc c = false) ∨
    (o.configured = true ∧ 0 < o.width ∧ 0 < o.height) := by
  by_cases h : o.configured = false ∨ o.width = 0 ∨ o.height = 0
  · left
    rw [render_output_idle env tick state o h]
    intro c hc; simp at hc
  · right
    push_neg at h
    refine ⟨by simpa using h.1, Nat.pos_of_ne_zero h.2.1, Nat.pos_of_ne_zero h.2.2⟩

/-- A pass over the sessions keeps the sessions called `name` unconfigured and free of
allocations if the function applied does so for each session. -/
theorem for_each_output_inv (name : ℕ)
    (f : wlrsetroot_output → ℕ → wlrsetroot_output × ℕ × List Cmd)
    (hname : ∀ o t, (f o t).1.wl_name = o.wl_name)
    (hconf : ∀ o t, o.wl_name = name → o.configured = false → (f o t).1.configured = false)
    (hlog : ∀ o t, o.wl_name = name → o.configured = false →
      ∀ c ∈ (f o t).2.2, is_alloc c = false) :
    ∀ (outs : List wlrsetroot_output) (tick : ℕ), Unconfigured name outs →
      Unconfigured name (for_each_output f outs tick).1 ∧
      NoAlloc name (for_each_output f outs tick).2.2 := by
  intro outs
  induction outs with
  | nil =>
    intro tick _
    constructor
    · intro o ho; simp [for_each_output] at ho
    · intro e he; simp [for_each_output] at he
  | cons o rest ih =>
    intro tick hU
    have hrest : Unconfigured name rest := fun o' ho' => hU o' (List.mem_cons_of_mem _ ho')
    have ho := hU o (List.mem_cons_self _ _)
    obtain ⟨ih1, ih2⟩ := ih (f o tick).2.1 hrest
    simp only [for_each_output]
    constructor
    · intro o' ho' hn
      rcases List.mem_cons.mp ho' with rfl | hmem
      · rw [hname] at hn
        exact hconf o tick hn (ho hn)
      · exact ih1 o' hmem hn
    · intro e he hn
      rcases List.mem_append.mp he with h1 | h2
      · obtain ⟨c, hc, rfl⟩ := List.mem_map.mp h1
        simp only [Option.some.injEq] at hn
        exact hlog o tick hn (ho hn) c hc
      · exact ih2 e h2 hn

/-- A pass that changes no session returns the list, the counter and no calls. -/
theorem for_each_output_skip (f : wlrsetroot_output → ℕ → wlrsetroot_output × ℕ × List Cmd) :
    ∀ (outs : List wlrsetroot_output) (tick : ℕ),
      (∀ o ∈ outs, ∀ t, f o t = (o, t, [])) →
      for_each_output f outs tick = (outs, tick, []) := by
  intro outs
  induction outs with
  | nil => intro tick _; rfl
  | cons o rest ih =>
    intro tick h
    simp only [for_each_output]
    rw [h o (List.mem_cons_self _ _) tick]
    simp only
    rw [ih tick (fun o' ho' => h o' (List.mem_cons_of_mem _ ho'))]
    simp

/-- Two logs without allocations for a session concatenate to such a log. -/
theorem NoAlloc_append {name : ℕ} {l1 l2 : List LogEntry} (h1 : NoAlloc name l1)
    (h2 : NoAlloc name l2) : NoAlloc name (l1 ++ l2) := by
  intro e he hn
  rcases List.mem_append.mp he with h | h
  · exact h1 e h hn
  · exact h2 e h hn

/-- Removing a session keeps the others unconfigured and allocates nothing. -/
theorem remove_output_inv (name n : ℕ) :
    ∀ outs : List wlrsetroot_output, Unconfigured name outs →
      Unconfigured name (remove_output n outs).1 ∧ NoAlloc name (remove_output n outs).2 := by
  intro outs
  induction outs with
  | nil =>
    intro _
    constructor
    · intro o ho; simp [remove_output] at ho
    · intro e he; simp [remove_output] at he
  | cons o rest ih =>
    intro hU
    have hrest : Unconfigured name rest := fun o' ho' => hU o' (List.mem_cons_of_mem _ ho')
    obtain ⟨ih1, ih2⟩ := ih hrest
    simp only [remove_output]
    split_ifs with h
    · refine ⟨hrest, ?_⟩
      intro e he _
      obtain ⟨c, hc, rfl⟩ := List.mem_map.mp he
      exact destroy_output_no_alloc o c hc
    · refine ⟨?_, ih2⟩
      intro o' ho' hn
      rcases List.mem_cons.mp ho' with rfl | hmem
      · exact hU _ (List.mem_cons_self _ _) hn
      · exact ih1 o' hmem hn

/-- Every event other than a configure event of the session keeps it quiet. -/
theorem deliver_quiet (env : Env) (name : ℕ) (sys : Sys) (e : Event)
    (he : is_configure_for name e = false) (h : Quiet name sys) :
    Quiet name (deliver env sys e) := by
  obtain ⟨hU, hL⟩ := h
  cases e with
  | global n i v =>
    cases i
    · exact ⟨hU, NoAlloc_append hL (by intro e he hn; simp at he; subst he; simp at hn)⟩
    · exact ⟨hU, NoAlloc_append hL (by intro e he hn; simp at he; subst he; simp at hn)⟩
    · simp only [deliver, registry_global]
      split_ifs
      · exact ⟨hU, hL⟩
      · refine ⟨?_, NoAlloc_append hL ?_⟩
        · intro o ho hn
          rcases List.mem_cons.mp ho with rfl | hmem
          · rfl
          · exact hU o hmem hn
        · intro e he hn
          simp at he
          rcases he with rfl | rfl <;> simp at hn
    · exact ⟨hU, NoAlloc_append hL (by intro e he hn; simp at he; subst he; simp at hn)⟩
    · exact ⟨hU, hL⟩
  | global_remove n =>
    obtain ⟨h1, h2⟩ := remove_output_inv name n sys.state.outputs hU
    exact ⟨h1, NoAlloc_append hL h2⟩
  | output_geometry _ => exact ⟨hU, hL⟩
  | output_mode _ => exact ⟨hU, hL⟩
  | output_name _ => exact ⟨hU, hL⟩
  | output_description _ => exact ⟨hU, hL⟩
  | output_done out =>
    obtain ⟨h1, h2⟩ := for_each_output_inv name
      (fun o tick => if o.wl_name = out then output_done env tick sys.state o else (o, tick, []))
      (by
        intro o t; simp only; split_ifs
        · unfold output_done; split_ifs
          · exact (create_layer_surface_fields env t sys.state o).1
          · rfl
        · rfl)
      (by
        intro o t _ hc; simp only; split_ifs
        · unfold output_done; split_ifs
          · rw [(create_layer_surface_fields env t sys.state o).2.1]; exact hc
          · exact hc
        · exact hc)
      (by
        intro o t _ _; simp only; split_ifs
        · unfold output_done; split_ifs
          · exact (create_layer_surface_fields env t sys.state o).2.2
          · intro c hc; simp at hc
        · intro c hc; simp at hc)
      sys.state.outputs sys.tick hU
    exact ⟨h1, NoAlloc_append hL h2⟩
  | output_scale out scale =>
    obtain ⟨h1, h2⟩ := for_each_output_inv name
      (fun o tick => if o.wl_name = out then (output_scale o scale, tick, []) else (o, tick, []))
      (by intro o t; simp only; split_ifs <;> rfl)
      (by intro o t _ hc; simp only; split_ifs <;> exact hc)
      (by intro o t _ _; simp only; split_ifs <;> (intro c hc; simp at hc))
      sys.state.outputs sys.tick hU
    exact ⟨h1, NoAlloc_append hL h2⟩
  | layer_surface_configure out serial width height =>
    have hne : out ≠ name := by
      intro h; subst h; simp [is_configure_for] at he
    obtain ⟨h1, h2⟩ := for_each_output_inv name
      (fun o tick => if o.wl_name = out
        then (layer_surface_configure o serial width height, tick, []) else (o, tick, []))
      (by intro o t; simp only; split_ifs <;> rfl)
      (by
        intro o t hn hc; simp only; split_ifs with h
        · exact absurd (h.symm.trans hn) hne
        · exact hc)
      (by intro o t _ _; simp only; split_ifs <;> (intro c hc; simp at hc))
      sys.state.outputs sys.tick hU
    exact ⟨h1, NoAlloc_append hL h2⟩
  | layer_surface_closed out =>
    obtain ⟨h1, h2⟩ := for_each_output_inv name
      (fun o tick => if o.wl_name = out
        then ((layer_surface_closed o).1, tick, (layer_surface_closed o).2) else (o, tick, []))
      (by
        intro o t; simp only; split_ifs
        · exact (layer_surface_closed_fields o).2.2.2.2.2.2.2
        · rfl)
      (by
        intro o t _ hc; simp only; split_ifs
        · rw [(layer_surface_closed_fields o).2.2.2.2.1]; exact hc
        · exact hc)
      (by
        intro o t _ _; simp only; split_ifs
        · exact layer_surface_closed_no_alloc o
        · intro c hc; simp at hc)
      sys.state.outputs sys.tick hU
    exact ⟨h1, NoAlloc_append hL h2⟩

/-- The loop body keeps an unconfigured session quiet. -/
theorem main_loop_body_quiet (env : Env) (name : ℕ) (sys : Sys) (h : Quiet name sys) :
    Quiet name (main_loop_body env sys) := by
  obtain ⟨hU, hL⟩ := h
  obtain ⟨h1, h2⟩ := for_each_output_inv name
    (fun o tick =>
      if o.configured = true ∧ o.buffer.buffer = none then render_output env tick sys.state o
      else (o, tick, []))
    (by
      intro o t; simp only; split_ifs
      · exact render_output_wl_name env t sys.state o
      · rfl)
    (by
      intro o t _ hc; simp only
      rw [if_neg (by rw [hc]; simp)]
      exact hc)
    (by
      intro o t _ hc; simp only
      rw [if_neg (by rw [hc]; simp)]
      intro c hcm; simp at hcm)
    sys.state.outputs sys.tick hU
  exact ⟨h1, NoAlloc_append hL h2⟩

/-- A batch of events without a configure event of the session keeps it quiet. -/
theorem foldl_deliver_quiet (env : Env) (name : ℕ) (events : List Event)
    (hev : ∀ e ∈ events, is_configure_for name e = false) :
    ∀ sys : Sys, Quiet name sys → Quiet name (events.foldl (deliver env) sys) := by
  induction events with
  | nil => intro sys h; exact h
  | cons e rest ih =>
    intro sys h
    simp only [List.foldl_cons]
    exact ih (fun e' he' => hev e' (List.mem_cons_of_mem _ he')) _
      (deliver_quiet env name sys e (hev e (List.mem_cons_self _ _)) h)

/-- Recording a call of `main` itself keeps every session quiet. -/
theorem log_append_quiet (name : ℕ) (sys : Sys) (c : Cmd) (h : Quiet name sys) :
    Quiet name { sys with log := sys.log ++ [(none, c)] } :=
  ⟨h.1, NoAlloc_append h.2 (by intro e he hn; simp at he; subst he; simp at hn)⟩

/-- One loop iteration without a configure event of the session keeps it quiet. -/
theorem main_loop_iteration_quiet (env : Env) (name : ℕ) (sys : Sys) (batch : List Event)
    (hev : ∀ e ∈ batch, is_configure_for name e = false) (h : Quiet name sys) :
    Quiet name (main_loop_iteration env sys batch) :=
  main_loop_body_quiet env name _
    (foldl_deliver_quiet env name batch hev _ (log_append_quiet name sys _ h))

/-- The dispatch loop keeps a session quiet as long as no configure event for it arrives. -/
theorem main_loop_quiet (env : Env) (name : ℕ) (dispatches : List (List Event))
    (hev : ∀ b ∈ dispatches, ∀ e ∈ b, is_configure_for name e = false) :
    ∀ sys : Sys, Quiet name sys → Quiet name (main_loop env sys dispatches) := by
  induction dispatches with
  | nil =>
    intro sys h
    simp only [main_loop]
    split_ifs
    · exact h
    · exact log_append_quiet name sys _ h
  | cons b rest ih =>
    intro sys h
    simp only [main_loop]
    split_ifs
    · exact h
    · exact ih (fun b' hb' => hev b' (List.mem_cons_of_mem _ hb')) _
        (main_loop_iteration_quiet env name sys b (hev b (List.mem_cons_self _ _)) h)

/-- The teardown of the sessions allocates nothing. -/
theorem destroy_outputs_no_alloc (name : ℕ) (outs : List wlrsetroot_output) :
    NoAlloc name (destroy_outputs outs) := by
  induction outs with
  | nil => intro e he; simp [destroy_outputs] at he
  | cons o rest ih =>
    simp only [destroy_outputs]
    refine NoAlloc_append ?_ ih
    intro e he _
    obtain ⟨c, hc, rfl⟩ := List.mem_map.mp he
    exact destroy_output_no_alloc o c hc

/-- The code at `cleanup` allocates nothing. -/
theorem cleanup_no_alloc (name : ℕ) (sys : Sys) (h : NoAlloc name sys.log) :
    NoAlloc name (cleanup sys).2.log := by
  have hopt : ∀ (x : Option ℕ) (c : ℕ → Cmd),
      NoAlloc name (match x with
        | some v => [((none : Option ℕ), c v)]
        | none => []) := by
    intro x c e he hn
    cases x with
    | none => simp at he
    | some v => simp at he; subst he; simp at hn
  simp only [cleanup]
  refine NoAlloc_append (NoAlloc_append (NoAlloc_append (NoAlloc_append (NoAlloc_append
    (NoAlloc_append (NoAlloc_append h (destroy_outputs_no_alloc name _)) (hopt _ _))
    (hopt _ _)) (hopt _ _)) (hopt _ _)) (hopt _ _)) ?_
  intro e he hn
  simp at he; subst he; simp at hn

/-- A run of `main` without a configure event for a session allocates no buffer for it. -/
theorem main_no_alloc (env : Env) (state : wlrsetroot_state) (connect : Option ℕ)
    (roundtrip1 roundtrip2 : List Event) (dispatches : List (List Event)) (name : ℕ)
    (hstart : Unconfigured name state.outputs)
    (h1 : ∀ e ∈ roundtrip1, is_configure_for name e = false)
    (h2 : ∀ e ∈ roundtrip2, is_configure_for name e = false)
    (h3 : ∀ b ∈ dispatches, ∀ e ∈ b, is_configure_for name e = false) :
    NoAlloc name (main env state connect roundtrip1 roundtrip2 dispatches).2.log := by
  cases connect with
  | none =>
    intro e he hn
    simp [main] at he
    subst he; simp at hn
  | some display =>
    have q0 : Quiet name
        { state := { state with display := some display, registry := some 0 }, tick := 1,
          log := [(none, Cmd.wl_display_get_registry 0), (none, Cmd.wl_display_roundtrip)] } := by
      refine ⟨hstart, ?_⟩
      intro e he hn
      simp at he
      rcases he with rfl | rfl <;> simp at hn
    have q1 := foldl_deliver_quiet env name roundtrip1 h1 _ q0
    simp only [main]
    split_ifs
    · exact cleanup_no_alloc name _ q1.2
    · exact cleanup_no_alloc name _ q1.2
    · exact cleanup_no_alloc name _ q1.2
    · apply cleanup_no_alloc
      have q2 := foldl_deliver_quiet env name roundtrip2 h2 _
        (log_append_quiet name _ Cmd.wl_display_roundtrip q1)
      refine (main_loop_quiet env name dispatches h3 _ ?_).2
      exact ⟨q2.1, q2.2⟩

/-- The loop body of `main` does nothing for sessions that hold a buffer, whatever size was
negotiated since. -/
theorem main_loop_body_skips_buffered (env : Env) (sys : Sys)
    (h : ∀ o ∈ sys.state.outputs, o.buffer.buffer ≠ none) :
    (main_loop_body env sys).log = sys.log ∧
    (main_loop_body env sys).state.outputs = sys.state.outputs ∧
    (main_loop_body env sys).tick = sys.tick := by
  have hs := for_each_output_skip
    (fun o tick =>
      if o.configured = true ∧ o.buffer.buffer = none then render_output env tick sys.state o
      else (o, tick, []))
    sys.state.outputs sys.tick
    (fun o ho t => by
      simp only
      rw [if_neg (fun hc => h o ho hc.2)])
  unfold main_loop_body
  simp only [hs, List.append_nil, and_self]

/-- After `layer_surface_closed` a session that was configured with non-zero dimensions
still passes the test of the loop body, and `render_output` starts an allocation for it. -/
theorem closed_session_still_renders (env : Env) (tick : ℕ) (state : wlrsetroot_state)
    (o : wlrsetroot_output) (hc : o.configured = true) (hw : o.width ≠ 0) (hh : o.height ≠ 0) :
    ((layer_surface_closed o).1.configured = true ∧
      (layer_surface_closed o).1.buffer.buffer = none) ∧
    ∃ ok, Cmd.create_shm_file ok ∈
      (render_output env tick state (layer_surface_closed o).1).2.2 := by
  obtain ⟨_, _, h3, h4, h5, h6, h7, _⟩ := layer_surface_closed_fields o
  refine ⟨⟨by rw [h5]; exact hc, h3⟩, ?_⟩
  unfold render_output
  rw [if_neg (by rw [h5, h6, h7, hc]; simp [hw, hh])]
  dsimp only
  rw [if_pos (Or.inl h3)]
  unfold pool_buffer_create
  cases env.shm tick
  · exact ⟨false, by simp⟩
  · exact ⟨true, by simp⟩
  · exact ⟨true, by simp⟩
  · exact ⟨true, by simp⟩

/-! ## The claims -/

/-- C1 (code bug, evaluated at the failing input): the compositor announces `wl_compositor`,
`wl_shm` and one output but no layer shell. After the first round-trip `layer_shell` is
absent, `main` makes no `wl_display_dispatch` call (it does not enter the loop), and its
exit status is `0`, not `1`. -/
theorem C1_missing_layer_shell_exit_status :
    (main env_ok state_default (some 100) roundtrip_no_layer_shell [] [[]]).2.state.layer_shell
      = none ∧
    (main env_ok state_default (some 100) roundtrip_no_layer_shell [] [[]]).1 = 0 ∧
    (main env_ok state_default (some 100) roundtrip_no_layer_shell [] [[]]).1 ≠ 1 ∧
    (none, Cmd.wl_display_dispatch true) ∉
      (main env_ok state_default (some 100) roundtrip_no_layer_shell [] [[]]).2.log ∧
    (none, Cmd.wl_display_dispatch false) ∉
      (main env_ok state_default (some 100) roundtrip_no_layer_shell [] [[]]).2.log := by
  decide

/-- C2 (code bug, evaluated at the failing input): one output with scale 1 receives
`configure(serial 1, 2, 2)`, the loop renders it, then it receives
`configure(serial 2, 3, 3)`. Over the whole run exactly one allocation is made for the
session; after the second iteration the session records the size 3x3 and serial 2 but still
holds the 2x2 buffer, the only `wl_buffer` created is the 2x2 one and the only serial
acknowledged is 1. -/
theorem C2_second_configure_not_rendered :
    ((calls_of 3 (main env_ok state_default (some 100) startup_events [.output_done 3]
        [[.layer_surface_configure 3 1 2 2], [.layer_surface_configure 3 2 3 3]]).2.log).filter
      is_alloc).length = 1 ∧
    sys_configured.state.outputs.map view =
      [{ wl_name := 3, surface := some 6, layer_surface := some 8, buffer := some 9,
         mapped := true, buffer_width := 2, buffer_height := 2, width := 2, height := 2,
         scale := 1, configured := true, configure_serial := 1 }] ∧
    (main_loop_iteration env_ok sys_configured
        [.layer_surface_configure 3 2 3 3]).state.outputs.map view =
      [{ wl_name := 3, surface := some 6, layer_surface := some 8, buffer := some 9,
         mapped := true, buffer_width := 2, buffer_height := 2, width := 3, height := 3,
         scale := 1, configured := true, configure_serial := 2 }] ∧
    (calls_of 3 (main_loop_iteration env_ok sys_configured
        [.layer_surface_configure 3 2 3 3]).log).filter is_create_buffer
      = [.wl_shm_pool_create_buffer 2 2 8 0 9] ∧
    (calls_of 3 (main_loop_iteration env_ok sys_configured
        [.layer_surface_configure 3 2 3 3]).log).filter is_ack
      = [.zwlr_layer_surface_v1_ack_configure (some 8) 1] := by
  decide

/-- C3 (code bug, evaluated at the failing input): a session configured with 2x2 and rendered
receives `closed`. The handler leaves layer surface, surface and buffer absent but
`configured = true`; the loop body of the same iteration then allocates a new 2x2 buffer
for the session and issues acknowledge, set-scale, attach, damage and commit with `NULL`
handles. -/
theorem C3_closed_session_renders :
    sys_configured.state.outputs.map view =
      [{ wl_name := 3, surface := some 6, layer_surface := some 8, buffer := some 9,
         mapped := true, buffer_width := 2, buffer_height := 2, width := 2, height := 2,
         scale := 1, configured := true, configure_serial := 1 }] ∧
    (deliver env_ok sys_configured (.layer_surface_closed 3)).state.outputs.map view =
      [{ wl_name := 3, surface := none, layer_surface := none, buffer := none,
         mapped := false, buffer_width := 2, buffer_height := 2, width := 2, height := 2,
         scale := 1, configured := true, configure_serial := 1 }] ∧
    (calls_of 3 (main_loop_body env_ok
        (deliver env_ok sys_configured (.layer_surface_closed 3))).log).drop
      (calls_of 3 (deliver env_ok sys_configured (.layer_surface_closed 3)).log).length =
      [.create_shm_file true, .ftruncate 16 true, .mmap 16 true,
       .wl_shm_create_pool (some 2) 16, .wl_shm_pool_create_buffer 2 2 8 0 10,
       .wl_shm_pool_destroy, .close,
       .zwlr_layer_surface_v1_ack_configure none 1,
       .wl_surface_set_buffer_scale none 1,
       .wl_surface_attach none (some 10),
       .wl_surface_damage_buffer none 2 2,
       .wl_surface_commit none] := by
  decide

/-- C4 (counterexample): a solid fill with `reverse = true`, foreground `0xFFFFFFFF` and
background `0xFF000000` into a 1x1 buffer leaves the pixel at `0xFFFFFFFF`, which is not
`bg_color`. -/
theorem C4_counterexample_reverse :
    state_reverse_solid.pattern = .PATTERN_NONE ∧ 1 ≤ (buffer_of 1 1).width ∧
    1 ≤ (buffer_of 1 1).height ∧
    render_tiled_pattern state_reverse_solid (buffer_of 1 1) (fun _ => 0) 0 = 0xFFFFFFFF ∧
    state_reverse_solid.bg_color = 0xFF000000 := by
  decide

/-- C4 (amended): for the pattern kind None and a buffer of fewer than `2 ^ 32` pixels, every
pixel `i < width * height` (so `width, height ≥ 1`) equals the resolved background
`reverse ? fg_color : bg_color` after `render_tiled_pattern`. -/
theorem C4_solid_fill (state : wlrsetroot_state) (buffer : pool_buffer) (pixels : PixelMem)
    (i : ℕ) (hp : state.pattern = .PATTERN_NONE)
    (hsz : buffer.width * buffer.height < 2 ^ 32)
    (hi : i < buffer.width * buffer.height) :
    render_tiled_pattern state buffer pixels i =
      (if state.reverse then state.fg_color else state.bg_color) := by
  unfold render_tiled_pattern
  simp only [if_pos hp]
  rw [Nat.mod_eq_of_lt hsz]
  exact foldl_store_hit (fun i => i) _ _ i pixels hi (fun j hj _ => by show j ≠ i; omega)

/-- C4 (witness): the amended statement at a reversed solid fill of a 2x2 buffer, pixel 3. -/
theorem C4_solid_fill_witness :
    render_tiled_pattern state_reverse_solid (buffer_of 2 2) (fun _ => 0) 3 =
      (if state_reverse_solid.reverse then state_reverse_solid.fg_color
        else state_reverse_solid.bg_color) :=
  C4_solid_fill state_reverse_solid (buffer_of 2 2) (fun _ => 0) 3 (by decide) (by decide)
    (by decide)

/-- C5 (code bug, evaluated at the failing input): in a 65536 x 65537 buffer the device pixel
`(x, y) = (0, 65536)` lies inside the buffer, but the cell `y * width + x = 2 ^ 32` is never
written by `render_tiled_pattern` (it keeps the 0 of the fresh mapping, which is neither
colour): the index is computed in 32 bits. -/
theorem C5_index_wraps :
    (0 < (buffer_of 65536 65537).width ∧ 65536 < (buffer_of 65536 65537).height) ∧
    render_tiled_pattern state_gray (buffer_of 65536 65537) (fun _ => 0)
      (65536 * (buffer_of 65536 65537).width + 0) = 0 ∧
    state_gray.fg_color ≠ 0 ∧ state_gray.bg_color ≠ 0 := by
  refine ⟨by decide, ?_, by decide, by decide⟩
  unfold render_tiled_pattern
  rw [if_neg (by decide)]
  apply foldl_rows_frame
  intro y x _ _
  have : (y * (buffer_of 65536 65537).width + x) % 2 ^ 32 < 2 ^ 32 := Nat.mod_lt _ (by norm_num)
  have h2 : 65536 * (buffer_of 65536 65537).width + 0 = 2 ^ 32 := by decide
  omega

/-- C6 (counterexample): for the grid `-mod 16 16` at scale 2 the device pixel `(0, 2)` is
marked and the device pixel `(16, 2)` is not, so the classification is not periodic with
period 16 in device coordinates. -/
theorem C6_counterexample_scale2 :
    state_mod16_scale2.pattern = .PATTERN_MOD ∧ 1 ≤ state_mod16_scale2.mod_x ∧
    1 ≤ state_mod16_scale2.mod_y ∧ state_mod16_scale2.pattern_scale = 2 ∧
    pattern_pixel state_mod16_scale2 0 2 = 1 ∧
    pattern_pixel state_mod16_scale2 (0 + 16) 2 = 0 := by
  have h0 : u32_of_f32 (f32_div (f32_of_u32 0) 2) = 0 :=
    scaled_coord_exact 0 0 2 (by norm_num) (by norm_num) (by norm_num)
  have h2 : u32_of_f32 (f32_div (f32_of_u32 2) 2) = 1 :=
    scaled_coord_exact 2 1 2 (by norm_num) (by norm_num) (by norm_num)
  have h16 : u32_of_f32 (f32_div (f32_of_u32 (0 + 16)) 2) = 8 :=
    scaled_coord_exact (0 + 16) 8 2 (by norm_num) (by norm_num) (by norm_num)
  refine ⟨rfl, by decide, by decide, rfl, ?_, ?_⟩
  · show mod_get_pixel 16 16 (u32_of_f32 (f32_div (f32_of_u32 0) 2))
      (u32_of_f32 (f32_div (f32_of_u32 2) 2)) = 1
    rw [h0, h2]; decide
  · show mod_get_pixel 16 16 (u32_of_f32 (f32_div (f32_of_u32 (0 + 16)) 2))
      (u32_of_f32 (f32_div (f32_of_u32 2) 2)) = 0
    rw [h16, h2]; decide

/-- C6 (amended): for a grid pattern at scale 1 and device coordinates with
`x + 16, y + 16 < 2 ^ 24` the classification used by the renderer is periodic with period
16 in both axes; and for every grid pattern `mod_get_pixel` is periodic with period 16 in
both of its (scaled) coordinate arguments. -/
theorem C6_grid_period (state : wlrsetroot_state) (x y : ℕ)
    (hp : state.pattern = .PATTERN_MOD) (hs : state.pattern_scale = 1)
    (hx : x + 16 < 2 ^ 24) (hy : y + 16 < 2 ^ 24) :
    (pattern_pixel state (x + 16) y = pattern_pixel state x y ∧
      pattern_pixel state x (y + 16) = pattern_pixel state x y) ∧
    (∀ px py : ℕ,
      mod_get_pixel state.mod_x state.mod_y (px + 16) py =
        mod_get_pixel state.mod_x state.mod_y px py ∧
      mod_get_pixel state.mod_x state.mod_y px (py + 16) =
        mod_get_pixel state.mod_x state.mod_y px py) := by
  refine ⟨⟨?_, ?_⟩, fun px py => ⟨mod_get_pixel_period_x _ _ _ _, mod_get_pixel_period_y _ _ _ _⟩⟩
  · rw [pattern_pixel_mod_scale_one state (x + 16) y hp hs hx (by omega),
      pattern_pixel_mod_scale_one state x y hp hs (by omega) (by omega)]
    exact mod_get_pixel_period_x _ _ _ _
  · rw [pattern_pixel_mod_scale_one state x (y + 16) hp hs (by omega) hy,
      pattern_pixel_mod_scale_one state x y hp hs (by omega) (by omega)]
    exact mod_get_pixel_period_y _ _ _ _

/-- C6 (witness): the amended statement for `-mod 4 4` at the device pixel `(3, 5)`. -/
theorem C6_grid_period_witness :
    (pattern_pixel state_mod4 (3 + 16) 5 = pattern_pixel state_mod4 3 5 ∧
      pattern_pixel state_mod4 3 (5 + 16) = pattern_pixel state_mod4 3 5) ∧
    (∀ px py : ℕ,
      mod_get_pixel state_mod4.mod_x state_mod4.mod_y (px + 16) py =
        mod_get_pixel state_mod4.mod_x state_mod4.mod_y px py ∧
      mod_get_pixel state_mod4.mod_x state_mod4.mod_y px (py + 16) =
        mod_get_pixel state_mod4.mod_x state_mod4.mod_y px py) :=
  C6_grid_period state_mod4 3 5 rfl rfl (by decide) (by decide)

/-- C7: for spacings `mod_x, mod_y ≥ 1` (C `int`s) and all `x`, `y`, `mod_get_pixel` returns 1
exactly if `(y mod 16) mod mod_y = 0` or `(x mod 16) mod mod_x = 0`; with
`mod_x = mod_y = 4` the pixel `(4, 0)` is marked, the renderer classifies the device pixel
`(4, 0)` as marked, the colour it selects for that pixel is the resolved background, and
the cell `0 * width + 4` of a buffer that contains the pixel (and has at most `2 ^ 32`
pixels) holds that colour after rendering. -/
theorem C7_mod_get_pixel (mod_x mod_y : ℤ) (x y : ℕ) (state : wlrsetroot_state)
    (buffer : pool_buffer) (pixels : PixelMem)
    (hx1 : 1 ≤ mod_x) (hx2 : mod_x < 2 ^ 31) (hy1 : 1 ≤ mod_y) (hy2 : mod_y < 2 ^ 31)
    (hp : state.pattern = .PATTERN_MOD) (hmx : state.mod_x = 4) (hmy : state.mod_y = 4)
    (hW : 4 < buffer.width) (hH : 0 < buffer.height)
    (hsz : buffer.width * buffer.height ≤ 2 ^ 32) :
    (mod_get_pixel mod_x mod_y x y = 1 ↔
      (((y % 16 : ℕ) : ℤ) % mod_y = 0 ∨ ((x % 16 : ℕ) : ℤ) % mod_x = 0)) ∧
    mod_get_pixel state.mod_x state.mod_y 4 0 = 1 ∧
    pattern_pixel state 4 0 = 1 ∧
    (if pattern_pixel state 4 0 ≠ 0
      then (if state.reverse then state.fg_color else state.bg_color)
      else (if state.reverse then state.bg_color else state.fg_color)) =
      (if state.reverse then state.fg_color else state.bg_color) ∧
    render_tiled_pattern state buffer pixels (0 * buffer.width + 4) =
      (if state.reverse then state.fg_color else state.bg_color) := by
  refine ⟨mod_get_pixel_iff mod_x mod_y x y hx1 hx2 hy1 hy2, ?_,
    pattern_pixel_origin_row state 4 hp, ?_, ?_⟩
  · rw [hmx, hmy]; decide
  · rw [pattern_pixel_origin_row state 4 hp]
    simp
  · rw [render_tiled_pattern_pixel state buffer pixels 4 0 (by rw [hp]; decide) hsz hW hH,
      pattern_pixel_origin_row state 4 hp]
    simp

/-- C7 (witness): the statement at `mod_x = mod_y = 4`, pixel `(4, 0)`, an 8x2 buffer. -/
theorem C7_mod_get_pixel_witness :
    (mod_get_pixel 4 4 4 0 = 1 ↔
      (((0 % 16 : ℕ) : ℤ) % 4 = 0 ∨ ((4 % 16 : ℕ) : ℤ) % 4 = 0)) ∧
    mod_get_pixel state_mod4.mod_x state_mod4.mod_y 4 0 = 1 ∧
    pattern_pixel state_mod4 4 0 = 1 ∧
    (if pattern_pixel state_mod4 4 0 ≠ 0
      then (if state_mod4.reverse then state_mod4.fg_color else state_mod4.bg_color)
      else (if state_mod4.reverse then state_mod4.bg_color else state_mod4.fg_color)) =
      (if state_mod4.reverse then state_mod4.fg_color else state_mod4.bg_color) ∧
    render_tiled_pattern state_mod4 (buffer_of 8 2) (fun _ => 0) (0 * (buffer_of 8 2).width + 4) =
      (if state_mod4.reverse then state_mod4.fg_color else state_mod4.bg_color) :=
  C7_mod_get_pixel 4 4 4 0 state_mod4 (buffer_of 8 2) (fun _ => 0) (by decide) (by decide)
    (by decide) (by decide) rfl rfl rfl (by decide) (by decide) (by decide)

/-- C8 (counterexample): at scale 1 the checkerboard classification of the device pixel
`(16777217, 0)` is 1, while the tile bit at `(16777217 mod 2, 0 mod 2) = (1, 0)` is 0:
`(float)16777217` is `16777216`. -/
theorem C8_counterexample_large_x :
    state_gray.pattern = .PATTERN_GRAY ∧ state_gray.pattern_scale = 1 ∧
    16777217 < 2 ^ 32 ∧
    pattern_pixel state_gray 16777217 0 = 1 ∧
    (gray_bits.getD (0 % 2) 0 >>> (16777217 % 2)) &&& 1 = 0 := by
  refine ⟨rfl, rfl, by norm_num, ?_, by decide⟩
  have hx : u32_of_f32 (fmodf (f32_div (f32_of_u32 16777217) 1) (f32_of_u32 GRAY_WIDTH)) = 0 := by
    have h1 : f32_of_u32 16777217 = 16777216 := by
      unfold f32_of_u32; exact_mod_cast f32_round_16777217
    have h2 : f32_div 16777216 1 = ((16777216 : ℕ) : ℚ) := by
      unfold f32_div; rw [div_one]; exact_mod_cast f32_round_16777216
    have h3 : f32_of_u32 GRAY_WIDTH = ((2 : ℕ) : ℚ) := by
      unfold f32_of_u32 GRAY_WIDTH; exact f32_round_natCast 2 (by norm_num)
    rw [h1, h2, h3, fmodf_natCast]
    exact u32_of_f32_natCast _ (by norm_num)
  have hy : u32_of_f32 (fmodf (f32_div (f32_of_u32 0) 1) (f32_of_u32 GRAY_HEIGHT)) = 0 :=
    wrap_scale_one 0 GRAY_HEIGHT (by norm_num) (by decide)
  show gray_get_pixel
      (u32_of_f32 (fmodf (f32_div (f32_of_u32 16777217) 1) (f32_of_u32 GRAY_WIDTH)))
      (u32_of_f32 (fmodf (f32_div (f32_of_u32 0) 1) (f32_of_u32 GRAY_HEIGHT))) = 1
  rw [hx, hy]; decide

/-- C8 (amended): at scale 1 and for device coordinates `x, y < 2 ^ 24`, the bitmap
classification (image with non-zero width and height) equals
`xbm_get_pixel image (x mod width) (y mod height)` and the checkerboard classification
equals the bit `x mod 2` of the tile byte `y mod 2` of `{0x01, 0x02}`. -/
theorem C8_scale_one (state : wlrsetroot_state) (image : xbm_image) (x y : ℕ)
    (hs : state.pattern_scale = 1) (hx : x < 2 ^ 24) (hy : y < 2 ^ 24)
    (hw : 0 < image.width) (hh : 0 < image.height) :
    pattern_pixel { state with pattern := .PATTERN_XBM, xbm := some image } x y =
      xbm_get_pixel image (x % image.width) (y % image.height) ∧
    pattern_pixel { state with pattern := .PATTERN_GRAY } x y =
      (([0x01, 0x02] : List ℕ).getD (y % 2) 0 >>> (x % 2)) &&& 1 := by
  constructor
  · unfold pattern_pixel
    simp only [hs]
    rw [wrap_scale_one x image.width hx hw, wrap_scale_one y image.height hy hh]
  · rw [← gray_get_pixel_tile]
    unfold pattern_pixel
    simp only [hs]
    rw [wrap_scale_one x GRAY_WIDTH hx (by decide), wrap_scale_one y GRAY_HEIGHT hy (by decide)]
    rfl

/-- C8 (witness): the amended statement at the device pixel `(5, 3)` of a 3x2 bitmap. -/
theorem C8_scale_one_witness :
    pattern_pixel { state_default with pattern := .PATTERN_XBM, xbm := some image_x } 5 3 =
      xbm_get_pixel image_x (5 % image_x.width) (3 % image_x.height) ∧
    pattern_pixel { state_default with pattern := .PATTERN_GRAY } 5 3 =
      (([0x01, 0x02] : List ℕ).getD (3 % 2) 0 >>> (5 % 2)) &&& 1 :=
  C8_scale_one state_default image_x 5 3 rfl (by norm_num) (by norm_num) (by decide) (by decide)

/-- C9 (code bug, evaluated at the failing input): for an image of width `2 ^ 32 - 1` the row
length computed by `xbm_get_pixel` is 0 instead of `ceil(width / 8) = 536870912`, the byte
index of the pixel `(0, 1)` is 0, and the function returns bit 0 of `bits[0]` (1) instead
of bit 0 of `bits[536870912]` (0). -/
theorem C9_row_stride_wraps :
    (0 < image_wide.width ∧ 1 < image_wide.height) ∧
    xbm_bytes_per_row image_wide.width = 0 ∧
    (image_wide.width + 7) / 8 = 536870912 ∧
    xbm_byte_index image_wide 0 1 = 0 ∧
    xbm_get_pixel image_wide 0 1 = 1 ∧
    (image_wide.bits.getD (1 * ((image_wide.width + 7) / 8) + 0 / 8) 0 >>> (0 % 8)) &&& 1
      = 0 := by
  refine ⟨by decide, by decide, by decide, by decide, by decide, ?_⟩
  have h : image_wide.bits.getD (1 * ((image_wide.width + 7) / 8) + 0 / 8) 0 = 0 := by
    have e : 1 * ((image_wide.width + 7) / 8) + 0 / 8 = 536870911 + 1 := by decide
    rw [e]
    show (1 :: List.replicate 1073741823 0).getD (536870911 + 1) 0 = 0
    rw [List.getD_cons_succ]
    exact getD_replicate_zero _ _
  rw [h]; decide

/-- C10: a run of `main` that starts without sessions and delivers no configure event for the
session `name` records no buffer allocation for it; from any program state in which that
session is unconfigured and has not allocated, the dispatch loop keeps it so;
`render_output` on a session with `configured = false`, `width = 0` or `height = 0` returns
the session unchanged and makes no call; and whenever `render_output` starts an
allocation the session has `configured = true` and non-zero width and height. -/
theorem C10_no_allocation_before_configure (env : Env) (state : wlrsetroot_state)
    (connect : Option ℕ) (roundtrip1 roundtrip2 : List Event) (dispatches : List (List Event))
    (name tick : ℕ) (o : wlrsetroot_output) (sys : Sys)
    (hstart : state.outputs = [])
    (h1 : ∀ e ∈ roundtrip1, is_configure_for name e = false)
    (h2 : ∀ e ∈ roundtrip2, is_configure_for name e = false)
    (h3 : ∀ b ∈ dispatches, ∀ e ∈ b, is_configure_for name e = false)
    (hsys : Quiet name sys)
    (ho : o.configured = false ∨ o.width = 0 ∨ o.height = 0) :
    NoAlloc name (main env state connect roundtrip1 roundtrip2 dispatches).2.log ∧
    Quiet name (main_loop env sys dispatches) ∧
    render_output env tick state o = (o, tick, []) ∧
    (∀ (o' : wlrsetroot_output) (t : ℕ),
      (∀ c ∈ (render_output env t state o').2.2, is_alloc c = false) ∨
      (o'.configured = true ∧ 0 < o'.width ∧ 0 < o'.height)) :=
  ⟨main_no_alloc env state connect roundtrip1 roundtrip2 dispatches name
      (by intro o' ho'; rw [hstart] at ho'; simp at ho') h1 h2 h3,
    main_loop_quiet env name dispatches h3 sys hsys,
    render_output_idle env tick state o ho,
    fun o' t => render_output_alloc_only_when_ready env t state o'⟩

/-- C10 (witness): the statement for output 3, which is described, rescaled and closed but
never configured. -/
theorem C10_no_allocation_before_configure_witness :
    NoAlloc 3 (main env_ok state_default (some 100) startup_events [.output_done 3]
      [[.output_scale 3 2], [.layer_surface_closed 3]]).2.log ∧
    Quiet 3 (main_loop env_ok sys_started [[.output_scale 3 2], [.layer_surface_closed 3]]) ∧
    render_output env_ok 0 state_default output_fresh = (output_fresh, 0, []) ∧
    (∀ (o' : wlrsetroot_output) (t : ℕ),
      (∀ c ∈ (render_output env_ok t state_default o').2.2, is_alloc c = false) ∨
      (o'.configured = true ∧ 0 < o'.width ∧ 0 < o'.height)) :=
  C10_no_allocation_before_configure env_ok state_default (some 100) startup_events
    [.output_done 3] [[.output_scale 3 2], [.layer_surface_closed 3]] 3 0 output_fresh
    sys_started rfl (by decide) (by decide) (by decide)
    ⟨by unfold Unconfigured; decide, by unfold NoAlloc; decide⟩ (Or.inl rfl)

/-! ## Buffer creation and destruction -/

/-- The function `pool_buffer_create` fails exactly when the shared-memory steps do. -/
theorem pool_buffer_create_result (env : Env) (tick : ℕ) (buf : pool_buffer) (shm : Option ℕ)
    (width height format : ℕ) :
    (pool_buffer_create env tick buf shm width height format).1 =
      decide (env.shm tick = .mapped) := by
  unfold pool_buffer_create
  cases env.shm tick <;> rfl

/-- A failed `pool_buffer_create` leaves the buffer as it was and makes none of the calls
that present a buffer. -/
theorem pool_buffer_create_failed (env : Env) (tick : ℕ) (buf : pool_buffer) (shm : Option ℕ)
    (width height format : ℕ)
    (h : (pool_buffer_create env tick buf shm width height format).1 = false) :
    (pool_buffer_create env tick buf shm width height format).2.1 = buf ∧
    ∀ c ∈ (pool_buffer_create env tick buf shm width height format).2.2.2,
      is_present c = false := by
  unfold pool_buffer_create at h ⊢
  cases hs : env.shm tick <;> simp [hs] at h ⊢
  · rfl
  · refine ⟨rfl, rfl, rfl⟩
  · refine ⟨rfl, rfl, rfl, rfl⟩

/-- Every `pool_buffer_create` starts with `create_shm_file`. -/
theorem pool_buffer_create_attempt (env : Env) (tick : ℕ) (buf : pool_buffer) (shm : Option ℕ)
    (width height format : ℕ) :
    ∃ ok, Cmd.create_shm_file ok ∈
      (pool_buffer_create env tick buf shm width height format).2.2.2 := by
  unfold pool_buffer_create
  cases env.shm tick
  · exact ⟨false, by simp⟩
  · exact ⟨true, by simp⟩
  · exact ⟨true, by simp⟩
  · exact ⟨true, by simp⟩

/-- After `pool_buffer_destroy` the handle and the mapping are absent, the recorded sizes
are kept, and the calls made are releases only. -/
theorem pool_buffer_destroy_fields (buf : pool_buffer) :
    (pool_buffer_destroy buf).1.buffer = none ∧
    (pool_buffer_destroy buf).1.data = none ∧
    (pool_buffer_destroy buf).1.width = buf.width ∧
    (pool_buffer_destroy buf).1.height = buf.height ∧
    (pool_buffer_destroy buf).1.size = buf.size ∧
    ∀ c ∈ (pool_buffer_destroy buf).2, is_present c = false := by
  unfold pool_buffer_destroy
  cases hb : buf.buffer <;> cases hd : buf.data <;> simp [hb, hd]
  · rfl
  · rfl
  · exact ⟨rfl, rfl⟩

/-- A configured session with non-zero size and no buffer makes `render_output` start an
allocation. -/
theorem render_output_attempts (env : Env) (tick : ℕ) (state : wlrsetroot_state)
    (o : wlrsetroot_output) (hc : o.configured = true) (hw : o.width ≠ 0) (hh : o.height ≠ 0)
    (hb : o.buffer.buffer = none) :
    ∃ ok, Cmd.create_shm_file ok ∈ (render_output env tick state o).2.2 := by
  unfold render_output
  rw [if_neg (by rw [hc]; simp [hw, hh])]
  dsimp only
  rw [if_pos (Or.inl hb)]
  unfold pool_buffer_create
  cases env.shm tick
  · exact ⟨false, by simp⟩
  · exact ⟨true, by simp⟩
  · exact ⟨true, by simp⟩
  · exact ⟨true, by simp⟩

/-- C11: for a configured session with non-zero width and height whose buffer has to be
(re)created (no buffer, or a buffer of another size), if `pool_buffer_create` fails then
`render_output` makes no acknowledge, set-scale, attach, damage or commit call, the session
keeps `configured = true` and its width, height and serial, its buffer handle and mapping
are absent, and a later `render_output` (which the loop body calls for a configured session
without buffer) starts an allocation again. -/
theorem C11_failed_create_skips_render (env : Env) (tick later : ℕ) (state : wlrsetroot_state)
    (o : wlrsetroot_output)
    (hc : o.configured = true) (hw : o.width ≠ 0) (hh : o.height ≠ 0)
    (hneed : o.buffer.buffer = none ∨
      o.buffer.width ≠ (o.width * u32_of_int o.scale) % 2 ^ 32 ∨
      o.buffer.height ≠ (o.height * u32_of_int o.scale) % 2 ^ 32)
    (hfail : (pool_buffer_create env tick (pool_buffer_destroy o.buffer).1 state.shm
      ((o.width * u32_of_int o.scale) % 2 ^ 32) ((o.height * u32_of_int o.scale) % 2 ^ 32)
      WL_SHM_FORMAT_ARGB8888).1 = false) :
    (∀ c ∈ (render_output env tick state o).2.2, is_present c = false) ∧
    (render_output env tick state o).1.configured = true ∧
    (render_output env tick state o).1.width = o.width ∧
    (render_output env tick state o).1.height = o.height ∧
    (render_output env tick state o).1.configure_serial = o.configure_serial ∧
    (render_output env tick state o).1.buffer.buffer = none ∧
    (render_output env tick state o).1.buffer.data = none ∧
    (∃ ok, Cmd.create_shm_file ok ∈
      (render_output env later state (render_output env tick state o).1).2.2) := by
  obtain ⟨hkeep, hcmds⟩ := pool_buffer_create_failed env tick (pool_buffer_destroy o.buffer).1
    state.shm _ _ _ hfail
  obtain ⟨d1, d2, _, _, _, d6⟩ := pool_buffer_destroy_fields o.buffer
  have hr : render_output env tick state o =
      ({ o with buffer := (pool_buffer_destroy o.buffer).1 },
        (pool_buffer_create env tick (pool_buffer_destroy o.buffer).1 state.shm
          ((o.width * u32_of_int o.scale) % 2 ^ 32)
          ((o.height * u32_of_int o.scale) % 2 ^ 32) WL_SHM_FORMAT_ARGB8888).2.2.1,
        (pool_buffer_destroy o.buffer).2 ++
          (pool_buffer_create env tick (pool_buffer_destroy o.buffer).1 state.shm
            ((o.width * u32_of_int o.scale) % 2 ^ 32)
            ((o.height * u32_of_int o.scale) % 2 ^ 32) WL_SHM_FORMAT_ARGB8888).2.2.2) := by
    unfold render_output
    rw [if_neg (by rw [hc]; simp [hw, hh])]
    dsimp only
    rw [if_pos hneed]
    dsimp only
    rw [if_pos hfail, hkeep]
  rw [hr]
  refine ⟨?_, hc, rfl, rfl, rfl, d1, d2, ?_⟩
  · intro c hcm
    rcases List.mem_append.mp hcm with h | h
    · exact d6 c h
    · exact hcmds c h
  · exact render_output_attempts env later state _ hc hw hh d1

/-- C11 (witness): the statement for a configured 2x2 session without buffer when no
shared-memory file can be created. -/
theorem C11_failed_create_skips_render_witness :
    (∀ c ∈ (render_output env_no_shm 20 state_default output_unrendered).2.2,
      is_present c = false) ∧
    (render_output env_no_shm 20 state_default output_unrendered).1.configured = true ∧
    (render_output env_no_shm 20 state_default output_unrendered).1.width
      = output_unrendered.width ∧
    (render_output env_no_shm 20 state_default output_unrendered).1.height
      = output_unrendered.height ∧
    (render_output env_no_shm 20 state_default output_unrendered).1.configure_serial
      = output_unrendered.configure_serial ∧
    (render_output env_no_shm 20 state_default output_unrendered).1.buffer.buffer = none ∧
    (render_output env_no_shm 20 state_default output_unrendered).1.buffer.data = none ∧
    (∃ ok, Cmd.create_shm_file ok ∈
      (render_output env_no_shm 21 state_default
        (render_output env_no_shm 20 state_default output_unrendered).1).2.2) :=
  C11_failed_create_skips_render env_no_shm 20 21 state_default output_unrendered rfl
    (by decide) (by decide) (Or.inl rfl) rfl

/-! ## Teardown of a session -/

/-- The loop of `registry_global_remove` unlinks the first session with the given name and
records its teardown. -/
theorem remove_output_first (o : wlrsetroot_output) (post : List wlrsetroot_output) :
    ∀ pre : List wlrsetroot_output, (∀ p ∈ pre, p.wl_name ≠ o.wl_name) →
      remove_output o.wl_name (pre ++ o :: post) =
        (pre ++ post, (destroy_output o).map (fun c => (some o.wl_name, c))) := by
  intro pre
  induction pre with
  | nil =>
    intro _
    simp [remove_output]
  | cons p rest ih =>
    intro h
    have hp : p.wl_name ≠ o.wl_name := h p (List.mem_cons_self _ _)
    simp only [List.cons_append, remove_output, if_neg hp, List.append_eq,
      ih (fun q hq => h q (List.mem_cons_of_mem _ hq))]

/-- C12 (counterexample): for a session that holds all four resources `destroy_output`
releases the display handle `wl_output` before the pixel buffer, not last. -/
theorem C12_counterexample_order :
    (output_full.layer_surface = some 8 ∧ output_full.surface = some 6 ∧
      output_full.buffer.buffer = some 9 ∧ output_full.wl_output = some 4) ∧
    destroy_output output_full =
      [.zwlr_layer_surface_v1_destroy 8, .wl_surface_destroy 6, .wl_output_destroy 4,
       .wl_buffer_destroy 9, .munmap 16, .free_output] ∧
    (destroy_output output_full).indexOf (.wl_output_destroy 4) <
      (destroy_output output_full).indexOf (.wl_buffer_destroy 9) := by
  decide

/-- C12 (amended): for a session that holds a layer surface, a surface, a buffer (handle and
mapping) and a display handle, `destroy_output` releases, in this order, the layer surface,
the surface, the display handle `wl_output`, and then the pixel buffer (`wl_buffer`, then the
mapping) before freeing the record; and `registry_global_remove` with the name of the
session, when it is the first of that name in the list, removes it from the list and
records exactly this teardown. -/
theorem C12_destroy_output_order (sys : Sys) (o : wlrsetroot_output)
    (pre post : List wlrsetroot_output) (l s b w : ℕ) (d : PixelMem)
    (hl : o.layer_surface = some l) (hs : o.surface = some s)
    (hb : o.buffer.buffer = some b) (hd : o.buffer.data = some d)
    (hw : o.wl_output = some w)
    (hlist : sys.state.outputs = pre ++ o :: post)
    (hfirst : ∀ p ∈ pre, p.wl_name ≠ o.wl_name) :
    destroy_output o =
      [.zwlr_layer_surface_v1_destroy l, .wl_surface_destroy s, .wl_output_destroy w,
       .wl_buffer_destroy b, .munmap o.buffer.size, .free_output] ∧
    (registry_global_remove sys o.wl_name).state.outputs = pre ++ post ∧
    (registry_global_remove sys o.wl_name).log =
      sys.log ++ (destroy_output o).map (fun c => (some o.wl_name, c)) := by
  have h1 : destroy_output o =
      [.zwlr_layer_surface_v1_destroy l, .wl_surface_destroy s, .wl_output_destroy w,
       .wl_buffer_destroy b, .munmap o.buffer.size, .free_output] := by
    unfold destroy_output pool_buffer_destroy
    simp [hl, hs, hw, hb, hd]
  refine ⟨h1, ?_, ?_⟩
  · unfold registry_global_remove
    simp only [hlist]
    rw [remove_output_first o post pre hfirst]
  · unfold registry_global_remove
    simp only [hlist]
    rw [remove_output_first o post pre hfirst]

/-- C12 (witness): the amended statement for a registry whose only session holds all four
resources. -/
theorem C12_destroy_output_order_witness :
    destroy_output output_full =
      [.zwlr_layer_surface_v1_destroy 8, .wl_surface_destroy 6, .wl_output_destroy 4,
       .wl_buffer_destroy 9, .munmap output_full.buffer.size, .free_output] ∧
    (registry_global_remove
      { sys_initial with state := { sys_initial.state with outputs := [output_full] } }
      output_full.wl_name).state.outputs = [] ++ [] ∧
    (registry_global_remove
      { sys_initial with state := { sys_initial.state with outputs := [output_full] } }
      output_full.wl_name).log =
      sys_initial.log ++ (destroy_output output_full).map (fun c => (some output_full.wl_name, c)) :=
  C12_destroy_output_order
    { sys_initial with state := { sys_initial.state with outputs := [output_full] } }
    output_full [] [] 8 6 9 4 (fun _ => 0) rfl rfl rfl rfl rfl rfl (by simp)

/-! ## Binds of the shared capabilities -/

/-- One `registry_global` call adds one bind of a shared capability exactly if it announces
that capability. -/
theorem registry_global_bind_count (env : Env) (sys : Sys) (name version : ℕ)
    (j i : Interface)
    (hi : i = .wl_compositor ∨ i = .wl_shm ∨ i = .zwlr_layer_shell_v1) :
    bind_count i (registry_global env sys name j version).log =
      bind_count i sys.log + (if j = i then 1 else 0) := by
  unfold bind_count
  by_cases h : env.alloc_ok sys.tick = false <;>
    rcases hi with rfl | rfl | rfl <;> cases j <;>
    simp [registry_global, h, is_bind, List.filter_append]

/-- C13 (amended): for every sequence of global-discovery events delivered to
`registry_global`, the number of binds of each shared capability (`wl_compositor`,
`wl_shm`, layer shell) grows by exactly the number of announcements of its interface;
so, starting without binds, a capability is bound at most once exactly if its interface
is announced at most once. -/
theorem C13_bind_per_announcement (env : Env) (sys : Sys)
    (globals : List (ℕ × Interface × ℕ)) :
    bind_count .wl_compositor (registry_globals env sys globals).log =
      bind_count .wl_compositor sys.log + announcements .wl_compositor globals ∧
    bind_count .wl_shm (registry_globals env sys globals).log =
      bind_count .wl_shm sys.log + announcements .wl_shm globals ∧
    bind_count .zwlr_layer_shell_v1 (registry_globals env sys globals).log =
      bind_count .zwlr_layer_shell_v1 sys.log + announcements .zwlr_layer_shell_v1 globals := by
  have key : ∀ (i : Interface),
      (i = .wl_compositor ∨ i = .wl_shm ∨ i = .zwlr_layer_shell_v1) →
      ∀ (gs : List (ℕ × Interface × ℕ)) (s : Sys),
      bind_count i (registry_globals env s gs).log = bind_count i s.log + announcements i gs := by
    intro i hi gs
    induction gs with
    | nil => intro s; simp [registry_globals, announcements]
    | cons g rest ih =>
      intro s
      have := ih (registry_global env s g.1 g.2.1 g.2.2)
      simp only [registry_globals, List.foldl_cons] at this ⊢
      rw [this, registry_global_bind_count env s g.1 g.2.2 g.2.1 i hi]
      unfold announcements
      by_cases hg : g.2.1 = i
      · simp [hg, List.filter_cons]; omega
      · simp [hg, List.filter_cons]
  exact ⟨key _ (Or.inl rfl) globals sys, key _ (Or.inr (Or.inl rfl)) globals sys,
    key _ (Or.inr (Or.inr rfl)) globals sys⟩

/-- C13 (counterexample): two announcements of `wl_compositor` (names 1 and 7) are both bound;
the second proxy replaces the first in the state. -/
theorem C13_counterexample_rebind :
    bind_count .wl_compositor
      (registry_globals env_ok sys_initial [(1, .wl_compositor, 4), (7, .wl_compositor, 4)]).log
      = 2 ∧
    (registry_globals env_ok sys_initial [(1, .wl_compositor, 4), (7, .wl_compositor, 4)]).log =
      [(none, .wl_registry_bind 1 .wl_compositor 4 1),
       (none, .wl_registry_bind 7 .wl_compositor 4 2)] ∧
    (registry_globals env_ok sys_initial
      [(1, .wl_compositor, 4), (7, .wl_compositor, 4)]).state.compositor = some 2 := by
  decide

/-! ## Sizes of the pixel buffer and of the bit array -/

/-- Without wrap-around of the stride (`width < 2 ^ 30`) a successful `pool_buffer_create`
sizes the region to `width * height * 4` bytes, passes the stride `width * 4` and records
width, height and size. -/
theorem pool_buffer_create_exact (env : Env) (tick : ℕ) (buf : pool_buffer) (shm : Option ℕ)
    (width height format : ℕ) (hw : width < 2 ^ 30) (hh : height < 2 ^ 32)
    (hok : (pool_buffer_create env tick buf shm width height format).1 = true) :
    (pool_buffer_create env tick buf shm width height format).2.1.size = width * height * 4 ∧
    (pool_buffer_create env tick buf shm width height format).2.1.width = width ∧
    (pool_buffer_create env tick buf shm width height format).2.1.height = height ∧
    Cmd.mmap (width * height * 4) true ∈
      (pool_buffer_create env tick buf shm width height format).2.2.2 ∧
    Cmd.wl_shm_pool_create_buffer width height (width * 4) format tick ∈
      (pool_buffer_create env tick buf shm width height format).2.2.2 := by
  have hstride : (width * 4) % 2 ^ 32 = width * 4 := Nat.mod_eq_of_lt (by omega)
  have hsize : (width * 4 * height) % 2 ^ 64 = width * height * 4 := by
    have h1 : width * 4 * height = width * height * 4 := by ring
    rw [h1]
    apply Nat.mod_eq_of_lt
    have h2 : width * height ≤ 2 ^ 30 * 2 ^ 32 := Nat.mul_le_mul (by omega) (by omega)
    have h3 : (2 : ℕ) ^ 30 * 2 ^ 32 * 4 = 2 ^ 64 := by norm_num
    rcases Nat.eq_zero_or_pos (width * height) with h0 | hpos
    · rw [h0]; norm_num
    · have h4 : width * height < 2 ^ 30 * 2 ^ 32 := by
        rcases Nat.eq_zero_or_pos height with hz | hp
        · rw [hz] at hpos; simp at hpos
        · calc width * height < 2 ^ 30 * height := Nat.mul_lt_mul_of_pos_right hw hp
            _ ≤ 2 ^ 30 * 2 ^ 32 := Nat.mul_le_mul_left _ (by omega)
      omega
  unfold pool_buffer_create at hok ⊢
  cases hs : env.shm tick <;> simp [hs] at hok ⊢
  have e1 : width * 4 % 4294967296 = width * 4 := hstride
  have e2 : width * 4 * height % 18446744073709551616 = width * height * 4 := hsize
  rw [e1, e2]
  exact ⟨rfl, rfl, rfl⟩

/-- C14 (code bug, evaluated at the failing input): `pool_buffer_create` for width
`2 ^ 30 + 1` and height 1 succeeds, records that width, and sizes the region to 4 bytes with
stride 4, where `width * height * 4` and `width * 4` are 4294967300: the stride is computed
in 32 bits. -/
theorem C14_stride_wraps :
    (1073741825 < 2 ^ 32 ∧ 1 < 2 ^ 32) ∧
    (pool_buffer_create env_ok 0 pool_buffer_zero (some 2) 1073741825 1
      WL_SHM_FORMAT_ARGB8888).1 = true ∧
    (pool_buffer_create env_ok 0 pool_buffer_zero (some 2) 1073741825 1
      WL_SHM_FORMAT_ARGB8888).2.1.size = 4 ∧
    (pool_buffer_create env_ok 0 pool_buffer_zero (some 2) 1073741825 1
      WL_SHM_FORMAT_ARGB8888).2.1.width = 1073741825 ∧
    (pool_buffer_create env_ok 0 pool_buffer_zero (some 2) 1073741825 1
      WL_SHM_FORMAT_ARGB8888).2.2.2 =
      [.create_shm_file true, .ftruncate 4 true, .mmap 4 true, .wl_shm_create_pool (some 2) 4,
       .wl_shm_pool_create_buffer 1073741825 1 4 0 0, .wl_shm_pool_destroy, .close] ∧
    1073741825 * 1 * 4 = 4294967300 ∧ 1073741825 * 4 = 4294967300 := by
  decide

/-- C15: for every buffer state `b`, a second `pool_buffer_destroy` returns the state left by
the first and makes no call; on the all-zero buffer `pool_buffer_destroy` changes nothing
and makes no call; after `pool_buffer_destroy` the server handle and the mapping are
absent. -/
theorem C15_pool_buffer_destroy_idempotent (b : pool_buffer) :
    pool_buffer_destroy (pool_buffer_destroy b).1 = ((pool_buffer_destroy b).1, []) ∧
    pool_buffer_destroy pool_buffer_zero = (pool_buffer_zero, []) ∧
    (pool_buffer_destroy b).1.buffer = none ∧
    (pool_buffer_destroy b).1.data = none := by
  obtain ⟨h1, h2, _⟩ := pool_buffer_destroy_fields b
  refine ⟨?_, rfl, h1, h2⟩
  generalize (pool_buffer_destroy b).1 = b' at h1 h2
  unfold pool_buffer_destroy
  simp [h1, h2]

/-- Without wrap-around in `width + 7` every in-range lookup reads inside the array that
the loader allocates. -/
theorem xbm_byte_index_in_range (image : xbm_image) (x y : ℕ)
    (hw : image.width + 7 < 2 ^ 32) (hh : image.height < 2 ^ 32)
    (hx : x < image.width) (hy : y < image.height) :
    xbm_byte_index image x y = y * ((image.width + 7) / 8) + x / 8 ∧
    xbm_expected_size image.width image.height = (image.width + 7) / 8 * image.height ∧
    xbm_byte_index image x y < xbm_expected_size image.width image.height := by
  have hbpr : xbm_bytes_per_row image.width = (image.width + 7) / 8 := by
    unfold xbm_bytes_per_row; rw [Nat.mod_eq_of_lt hw]
  have hb : (image.width + 7) / 8 < 2 ^ 29 := by omega
  have hxb : x / 8 < (image.width + 7) / 8 := by omega
  have hlt : y * ((image.width + 7) / 8) + x / 8 < (image.width + 7) / 8 * image.height := by
    have h1 : (y + 1) * ((image.width + 7) / 8) ≤ image.height * ((image.width + 7) / 8) :=
      Nat.mul_le_mul_right _ hy
    have h2 : (y + 1) * ((image.width + 7) / 8) =
        y * ((image.width + 7) / 8) + (image.width + 7) / 8 := by ring
    have h3 : image.height * ((image.width + 7) / 8) =
        (image.width + 7) / 8 * image.height := Nat.mul_comm _ _
    omega
  have hsz : (image.width + 7) / 8 * image.height < 2 ^ 64 := by
    have h1 : (image.width + 7) / 8 * image.height ≤ 2 ^ 29 * 2 ^ 32 :=
      Nat.mul_le_mul (by omega) (by omega)
    have h2 : (2 : ℕ) ^ 29 * 2 ^ 32 < 2 ^ 64 := by norm_num
    omega
  have e1 : xbm_byte_index image x y = y * ((image.width + 7) / 8) + x / 8 := by
    unfold xbm_byte_index
    rw [hbpr]
    exact Nat.mod_eq_of_lt (by omega)
  have e2 : xbm_expected_size image.width image.height =
      (image.width + 7) / 8 * image.height := by
    unfold xbm_expected_size
    rw [hbpr]
    exact Nat.mod_eq_of_lt hsz
  exact ⟨e1, e2, by rw [e1, e2]; exact hlt⟩

/-- The byte index computed by `xbm_get_pixel` for an in-range pixel always lies below
`ceil(width / 8) * height`, the length that an array without wrap-around would have. -/
theorem xbm_byte_index_lt_full_length (image : xbm_image) (x y : ℕ)
    (hx : x < image.width) (hy : y < image.height) :
    xbm_byte_index image x y < (image.width + 7) / 8 * image.height := by
  have hle : xbm_bytes_per_row image.width ≤ (image.width + 7) / 8 := by
    unfold xbm_bytes_per_row
    exact Nat.div_le_div_right (Nat.mod_le _ _)
  have hxb : x / 8 < (image.width + 7) / 8 := by omega
  have h1 : y * xbm_bytes_per_row image.width ≤ y * ((image.width + 7) / 8) :=
    Nat.mul_le_mul_left _ hle
  have h2 : (y + 1) * ((image.width + 7) / 8) ≤ image.height * ((image.width + 7) / 8) :=
    Nat.mul_le_mul_right _ hy
  have h3 : (y + 1) * ((image.width + 7) / 8) =
      y * ((image.width + 7) / 8) + (image.width + 7) / 8 := by ring
  have h4 : image.height * ((image.width + 7) / 8) =
      (image.width + 7) / 8 * image.height := Nat.mul_comm _ _
  have h5 : xbm_byte_index image x y ≤ y * xbm_bytes_per_row image.width + x / 8 := by
    unfold xbm_byte_index
    exact Nat.mod_le _ _
  omega

/-- The bit array of a loaded image has `expected_size` bytes. -/
theorem xbm_load_bits_length (width_def height_def x_hot y_hot : Option ℤ)
    (array : Option (List ℕ)) (image : xbm_image)
    (h : xbm_load width_def height_def x_hot y_hot array = some image) :
    image.bits.length = xbm_expected_size image.width image.height ∧
    0 < image.width ∧ 0 < image.height := by
  unfold xbm_load at h
  cases width_def <;> cases height_def <;> cases array <;> simp at h
  obtain ⟨⟨hw, hh⟩, rfl⟩ := h
  simp only [List.length_append, List.length_map, List.length_take, List.length_replicate]
  refine ⟨?_, Nat.pos_of_ne_zero hw, Nat.pos_of_ne_zero hh⟩
  omega

/-- C16 (code bug, evaluated at the failing input): for a file with `#define w_width -1`,
`#define w_height 1` and one data byte the loader returns an image of width `2 ^ 32 - 1`
and height 1 whose bit array has 0 bytes (`expected_size` is 0, not
`ceil(w / 8) * h = 536870912`); the in-range lookup `(0, 0)` computes the byte index 0,
which is outside that array. -/
theorem C16_lookup_outside_empty_array :
    (xbm_load (some (-1)) (some 1) none none (some [0xff])).map
      (fun image => (image.width, image.height, image.bits.length,
        xbm_byte_index image 0 0)) = some (4294967295, 1, 0, 0) ∧
    xbm_expected_size 4294967295 1 = 0 ∧
    (4294967295 + 7) / 8 * 1 = 536870912 := by
  decide

end Wlrsetroot
